import Mathlib

/-! Verification development for a slice of qtdeclarative.

Shallow embedding of

* `src/declarative/qml/qdeclarativecustomparser.cpp`
  (the custom-parser node conversion and the error accumulator),
* `examples/quick/scenegraph/customgeometry/beziercurve.cpp`
  (the Bezier curve scene-graph item),
* `src/particles/qquicktargetdirection_p.h`
  (the target-direction property bag),
* the behaviour of `SystemPalette` exercised by
  `tests/auto/quick/qquicksystempalette/tst_qquicksystempalette.cpp`.

Conventions: the `qreal` arithmetic of the Bezier curve is carried out on exact
rationals (`ℚ`); a division whose divisor is zero has no value and is modelled by
`none`.  The narrowing of a coordinate to `float` is a parameter of the paint
function: the identity for the statements made in exact arithmetic, `toFloat`
(binary32, round to nearest, ties to even) for what the machine stores.  The
`qreal` members of the target direction are only stored and compared; they are
modelled by `Qreal`, which has a NaN.  A dereference of a null pointer (or a failed
`Q_ASSERT`) is modelled by the result `none`.
-/

/-! ## Parsed QML tree (`QDeclarativeScript`) -/

namespace QDeclarativeScript

/-- Source position `QDeclarativeScript::Location` with its `line` and `column`. -/
structure Location where
  line : Int
  column : Int
deriving DecidableEq, Repr

/-- Source range `QDeclarativeScript::LocationSpan`; only `start` is read by the code. -/
structure LocationSpan where
  start : Location
  stop : Location
deriving DecidableEq, Repr

/-- Literal payload `QDeclarativeScript::Variant` of a parsed value.  The conversion
code copies it without looking inside. -/
inductive Variant where
  | Invalid
  | Boolean (b : Bool)
  | Number (n : Int)
  | String (s : String)
  | Script (s : String)
deriving DecidableEq, Repr

/-- Tag `QDeclarativeScript::Value::Type`. -/
inductive ValueType where
  | Unknown
  | Literal
  | PropertyBinding
  | ValueSource
  | ValueInterceptor
  | CreatedObject
  | SignalObject
  | SignalExpression
  | Id
deriving DecidableEq, Repr

mutual
/-- Parsed object `QDeclarativeScript::Object`: the fields read by `fromObject`. -/
inductive Object where
  | mk (typeName : String) (location : LocationSpan)
       (properties : List Property) (defaultProperty : Option Property)
/-- Parsed property `QDeclarativeScript::Property`: the fields read by `fromProperty`.
`value` is the nested object value (a null pointer is `none`). -/
inductive Property where
  | mk (name : String) (location : LocationSpan)
       (values : List Value) (value : Option Object)
/-- Parsed value `QDeclarativeScript::Value`: its `type` tag, literal `value` and
the `object` pointer (a null pointer is `none`). -/
inductive Value where
  | mk (type : ValueType) (value : Variant) (object : Option Object)
end

/-- Field `typeName` of an object. -/
def Object.typeName : Object → String
  | .mk typeName _ _ _ => typeName

/-- Field `location` of an object. -/
def Object.location : Object → LocationSpan
  | .mk _ location _ _ => location

/-- Field `properties` of an object. -/
def Object.properties : Object → List Property
  | .mk _ _ properties _ => properties

/-- Field `defaultProperty` of an object. -/
def Object.defaultProperty : Object → Option Property
  | .mk _ _ _ defaultProperty => defaultProperty

/-- Method `name()` of a property. -/
def Property.name : Property → String
  | .mk name _ _ _ => name

/-- Field `location` of a property. -/
def Property.location : Property → LocationSpan
  | .mk _ location _ _ => location

/-- Field `values` of a property. -/
def Property.values : Property → List Value
  | .mk _ _ values _ => values

/-- Field `value` of a property. -/
def Property.value : Property → Option Object
  | .mk _ _ _ value => value

/-- Field `type` of a value. -/
def Value.type : Value → ValueType
  | .mk type _ _ => type

/-- Field `value` of a value. -/
def Value.value : Value → Variant
  | .mk _ value _ => value

/-- Field `object` of a value. -/
def Value.object : Value → Option Object
  | .mk _ _ object => object

/-- Test `isMany()` of a value list: it holds more than one element. -/
def isMany (values : List Value) : Bool :=
  decide (1 < values.length)

end QDeclarativeScript

open QDeclarativeScript

/-! ## Custom-parser tree -/

mutual
/-- Data of `QDeclarativeCustomParserNode` (`QDeclarativeCustomParserNodePrivate`). -/
inductive QDeclarativeCustomParserNode where
  | mk (name : String) (properties : List QDeclarativeCustomParserProperty)
       (location : Location)
/-- Data of `QDeclarativeCustomParserProperty`
(`QDeclarativeCustomParserPropertyPrivate`). -/
inductive QDeclarativeCustomParserProperty where
  | mk (name : String) (isList : Bool) (location : Location) (values : List QVariant)
/-- The three kinds of `QVariant` the conversion stores in a property: a node,
a property, or a literal `QDeclarativeScript::Variant`. -/
inductive QVariant where
  | node (n : QDeclarativeCustomParserNode)
  | property (p : QDeclarativeCustomParserProperty)
  | variant (v : Variant)
end

/-- Getter `QDeclarativeCustomParserNode::name()`. -/
def QDeclarativeCustomParserNode.name : QDeclarativeCustomParserNode → String
  | .mk name _ _ => name

/-- Getter `QDeclarativeCustomParserNode::properties()`. -/
def QDeclarativeCustomParserNode.properties :
    QDeclarativeCustomParserNode → List QDeclarativeCustomParserProperty
  | .mk _ properties _ => properties

/-- Getter `QDeclarativeCustomParserNode::location()`. -/
def QDeclarativeCustomParserNode.location : QDeclarativeCustomParserNode → Location
  | .mk _ _ location => location

/-- Getter `QDeclarativeCustomParserProperty::name()`. -/
def QDeclarativeCustomParserProperty.name : QDeclarativeCustomParserProperty → String
  | .mk name _ _ _ => name

/-- Getter `QDeclarativeCustomParserProperty::isList()`. -/
def QDeclarativeCustomParserProperty.isList : QDeclarativeCustomParserProperty → Bool
  | .mk _ isList _ _ => isList

/-- Getter `QDeclarativeCustomParserProperty::location()`. -/
def QDeclarativeCustomParserProperty.location :
    QDeclarativeCustomParserProperty → Location
  | .mk _ _ location _ => location

/-- Getter `QDeclarativeCustomParserProperty::assignedValues()`: returns `d->values`. -/
def QDeclarativeCustomParserProperty.assignedValues :
    QDeclarativeCustomParserProperty → List QVariant
  | .mk _ _ _ values => values

namespace QDeclarativeCustomParserNodePrivate

/-!
`fromObject` and `fromProperty` return the converted value together with the
parsed tree as the call leaves it: `fromProperty` writes
`v->type = QDeclarativeScript::Value::Literal` into every value it visits.
`fromProperties` is the `for` loop of `fromObject` over `root->properties`,
`fromValues` the `for` loop of `fromProperty` over `p->values`.
-/

mutual
/-- Conversion `QDeclarativeCustomParserNodePrivate::fromObject(root)`. -/
def fromObject : Object → QDeclarativeCustomParserNode × Object
  | .mk typeName location properties defaultProperty =>
    let r := fromProperties properties
    match defaultProperty with
    | some dp =>
      let d := fromProperty dp
      (.mk typeName (r.1 ++ [d.1]) location.start,
        .mk typeName location r.2 (some d.2))
    | none =>
      (.mk typeName r.1 location.start, .mk typeName location r.2 none)
/-- Loop of `fromObject`: appends `fromProperty(p)` for each property in order. -/
def fromProperties :
    List Property → List QDeclarativeCustomParserProperty × List Property
  | [] => ([], [])
  | p :: ps =>
    let a := fromProperty p
    let b := fromProperties ps
    (a.1 :: b.1, a.2 :: b.2)
/-- Conversion `QDeclarativeCustomParserNodePrivate::fromProperty(p)`. -/
def fromProperty : Property → QDeclarativeCustomParserProperty × Property
  | .mk name location values value =>
    match value with
    | some o =>
      let r := fromObject o
      (.mk name (isMany values) location.start
          (r.1.properties.map QVariant.property),
        .mk name location values (some r.2))
    | none =>
      let r := fromValues values
      (.mk name (isMany values) location.start r.1, .mk name location r.2 none)
/-- Loop of `fromProperty` over the values: marks each value `Literal` and
appends the node of its object, or its literal variant when it has no object. -/
def fromValues : List Value → List QVariant × List Value
  | [] => ([], [])
  | .mk _ value object :: vs =>
    match object with
    | some o =>
      let r := fromObject o
      let rest := fromValues vs
      (QVariant.node r.1 :: rest.1, .mk .Literal value (some r.2) :: rest.2)
    | none =>
      let rest := fromValues vs
      (QVariant.variant value :: rest.1, .mk .Literal value none :: rest.2)
end

end QDeclarativeCustomParserNodePrivate

/-! ## Error accumulator of `QDeclarativeCustomParser` -/

/-- Modelled from the spec: `QDeclarativeError` is declared outside the shown
sources; per the spec an error carries a line/column location and a description
string.  A default-constructed error has no position (`-1`) and an empty
description. -/
structure QDeclarativeError where
  description : String := ""
  line : Int := -1
  column : Int := -1
deriving DecidableEq, Repr

namespace QDeclarativeError

/-- Setter `setLine`. -/
def setLine (e : QDeclarativeError) (line : Int) : QDeclarativeError :=
  { e with line := line }

/-- Setter `setColumn`. -/
def setColumn (e : QDeclarativeError) (column : Int) : QDeclarativeError :=
  { e with column := column }

/-- Setter `setDescription`. -/
def setDescription (e : QDeclarativeError) (description : String) : QDeclarativeError :=
  { e with description := description }

end QDeclarativeError

/-- State of a `QDeclarativeCustomParser` read or written by the error functions:
the `object` under compilation (null is `none`) and the list `exceptions`. -/
structure QDeclarativeCustomParser where
  object : Option Object
  exceptions : List QDeclarativeError

namespace QDeclarativeCustomParser

/-- Method `clearErrors()`: `exceptions.clear()`. -/
def clearErrors (self : QDeclarativeCustomParser) : QDeclarativeCustomParser :=
  { self with exceptions := [] }

/-- Method `error(const QString& description)`.  `Q_ASSERT(object)` fails on a null
`object`, which is the result `none`. -/
def error (self : QDeclarativeCustomParser) (description : String) :
    Option QDeclarativeCustomParser :=
  match self.object with
  | none => none
  | some object =>
    let error : QDeclarativeError := {}
    let error := error.setLine object.location.start.line
    let error := error.setColumn object.location.start.column
    let error := error.setDescription description
    some { self with exceptions := self.exceptions ++ [error] }

/-- Method `error(const QDeclarativeCustomParserProperty& prop, const QString&)`. -/
def errorProperty (self : QDeclarativeCustomParser)
    (prop : QDeclarativeCustomParserProperty) (description : String) :
    QDeclarativeCustomParser :=
  let error : QDeclarativeError := {}
  let error := error.setLine prop.location.line
  let error := error.setColumn prop.location.column
  let error := error.setDescription description
  { self with exceptions := self.exceptions ++ [error] }

/-- Method `error(const QDeclarativeCustomParserNode& node, const QString&)`. -/
def errorNode (self : QDeclarativeCustomParser)
    (node : QDeclarativeCustomParserNode) (description : String) :
    QDeclarativeCustomParser :=
  let error : QDeclarativeError := {}
  let error := error.setLine node.location.line
  let error := error.setColumn node.location.column
  let error := error.setDescription description
  { self with exceptions := self.exceptions ++ [error] }

/-- One call of an `error` overload, with its arguments. -/
inductive ErrorCall where
  | ofDescription (description : String)
  | ofProperty (prop : QDeclarativeCustomParserProperty) (description : String)
  | ofNode (node : QDeclarativeCustomParserNode) (description : String)

/-- The description argument of a call. -/
def ErrorCall.description : ErrorCall → String
  | .ofDescription d => d
  | .ofProperty _ d => d
  | .ofNode _ d => d

/-- Whether the call is the overload that reads the object under compilation. -/
def ErrorCall.needsObject : ErrorCall → Bool
  | .ofDescription _ => true
  | .ofProperty _ _ => false
  | .ofNode _ _ => false

/-- Performs one call on the parser. -/
def ErrorCall.run (self : QDeclarativeCustomParser) : ErrorCall →
    Option QDeclarativeCustomParser
  | .ofDescription d => self.error d
  | .ofProperty p d => some (self.errorProperty p d)
  | .ofNode n d => some (self.errorNode n d)

/-- Performs a sequence of calls in order, stopping at a failed assertion. -/
def runCalls (self : QDeclarativeCustomParser) : List ErrorCall →
    Option QDeclarativeCustomParser
  | [] => some self
  | c :: cs =>
    match c.run self with
    | none => none
    | some next => runCalls next cs

end QDeclarativeCustomParser

/-! ## Bezier curve item (`beziercurve.cpp`) -/

/-- Point `QPointF` with coordinates `xp`, `yp` (exact rationals).  Its
`operator==` is taken as equality of both coordinates. -/
structure QPointF where
  xp : ℚ
  yp : ℚ
deriving DecidableEq

namespace QPointF

/-- Getter `x()`. -/
def x (p : QPointF) : ℚ := p.xp

/-- Getter `y()`. -/
def y (p : QPointF) : ℚ := p.yp

/-- Product `operator*(qreal c, const QPointF &p)`: `QPointF(p.xp * c, p.yp * c)`. -/
instance : HMul ℚ QPointF QPointF := ⟨fun c p => ⟨p.xp * c, p.yp * c⟩⟩

/-- Sum `operator+(const QPointF &, const QPointF &)`. -/
instance : Add QPointF := ⟨fun p q => ⟨p.xp + q.xp, p.yp + q.yp⟩⟩

end QPointF

/-- Rectangle `QRectF` given by its corner `xp`, `yp` and its size `w`, `h`. -/
structure QRectF where
  xp : ℚ
  yp : ℚ
  w : ℚ
  h : ℚ
deriving DecidableEq

namespace QRectF

/-- Getter `x()`. -/
def x (r : QRectF) : ℚ := r.xp

/-- Getter `y()`. -/
def y (r : QRectF) : ℚ := r.yp

/-- Getter `width()`. -/
def width (r : QRectF) : ℚ := r.w

/-- Getter `height()`. -/
def height (r : QRectF) : ℚ := r.h

end QRectF

/-- Colour `QColor(r, g, b, a)`; the three-argument constructor sets `a = 255`. -/
structure QColor where
  r : Nat
  g : Nat
  b : Nat
  a : Nat := 255
deriving DecidableEq, Repr

/-- Vertex `QSGGeometry::Point2D`. -/
structure Point2D where
  x : ℚ
  y : ℚ
deriving DecidableEq

/-- Whether a vertex lies in a rectangle: `bx <= x <= bx + w` and `by <= y <= by + h`. -/
def Point2D.within (v : Point2D) (r : QRectF) : Prop :=
  r.x ≤ v.x ∧ v.x ≤ r.x + r.width ∧ r.y ≤ v.y ∧ v.y ≤ r.y + r.height

instance (v : Point2D) (r : QRectF) : Decidable (v.within r) := by
  unfold Point2D.within
  exact inferInstance

/-- Drawing mode `GL_LINE_STRIP`. -/
def GL_LINE_STRIP : Nat := 0x0003

/-- Drawing mode `GL_TRIANGLE_STRIP`. -/
def GL_TRIANGLE_STRIP : Nat := 0x0005

/-- Content of one vertex slot of a geometry: `unwritten` while the storage is as
the allocation left it (contents unspecified), `written v` once
`vertices[i].set(x, y)` has stored into it; `v` is `none` when the stored
coordinates have no value (computed from a division by zero, or beyond the range of
`float`). -/
inductive VertexSlot where
  | unwritten
  | written (v : Option Point2D)
deriving DecidableEq

/-- The vertex a slot holds, when it was written with defined coordinates. -/
def VertexSlot.vertex : VertexSlot → Option Point2D
  | .unwritten => none
  | .written v => v

/-- Modelled from the spec: `QSGGeometry` is declared outside the shown sources;
it is the vertex data of the retained draw-node. -/
structure QSGGeometry where
  vertexCount : Int
  lineWidth : ℚ
  drawingMode : Nat
  vertexData : List VertexSlot
deriving DecidableEq

namespace QSGGeometry

/-- Constructor `QSGGeometry(defaultAttributes_Point2D(), vertexCount)`: fresh
storage for `vertexCount` vertices, line width 1, triangle-strip mode. -/
def create (vertexCount : Int) : QSGGeometry :=
  { vertexCount := vertexCount, lineWidth := 1, drawingMode := GL_TRIANGLE_STRIP,
    vertexData := List.replicate vertexCount.toNat .unwritten }

/-- Setter `setLineWidth`. -/
def setLineWidth (g : QSGGeometry) (w : ℚ) : QSGGeometry :=
  { g with lineWidth := w }

/-- Setter `setDrawingMode`. -/
def setDrawingMode (g : QSGGeometry) (mode : Nat) : QSGGeometry :=
  { g with drawingMode := mode }

/-- Method `allocate(vertexCount)`: the geometry holds `vertexCount` vertices
afterwards; their contents are not relied upon. -/
def allocate (g : QSGGeometry) (vertexCount : Int) : QSGGeometry :=
  { g with vertexCount := vertexCount,
           vertexData := List.replicate vertexCount.toNat .unwritten }

end QSGGeometry

/-- Material `QSGFlatColorMaterial`; a fresh one is white. -/
structure QSGFlatColorMaterial where
  color : QColor := { r := 255, g := 255, b := 255 }
deriving DecidableEq

/-- Setter `QSGFlatColorMaterial::setColor`. -/
def QSGFlatColorMaterial.setColor (m : QSGFlatColorMaterial) (c : QColor) :
    QSGFlatColorMaterial :=
  { m with color := c }

/-- Node `QSGGeometryNode`: its geometry and material pointers (null is `none`) and
the two ownership flags. -/
structure QSGGeometryNode where
  geometry : Option QSGGeometry := none
  material : Option QSGFlatColorMaterial := none
  ownsGeometry : Bool := false
  ownsMaterial : Bool := false
deriving DecidableEq

/-- Division of two `qreal`s; it has no value when the divisor is zero. -/
def qrealDiv (a b : ℚ) : Option ℚ :=
  if b = 0 then none else some (a / b)

/-- Nearest integer to `q`, a tie going to the even neighbour. -/
def roundHalfEven (q : ℚ) : ℤ :=
  let f : ℤ := ⌊q⌋
  if q - f < 1 / 2 then f
  else if 1 / 2 < q - f then f + 1
  else if f % 2 = 0 then f else f + 1

/-- Narrowing `float x = ...` of a `qreal` value to binary32: the nearest value with
a 24-bit significand (exponent at least `-126`, so spacing at least `2^-149`), ties
to even; `none` when the result is beyond the largest `float` (it is infinite). -/
def toFloat (q : ℚ) : Option ℚ :=
  if q = 0 then some 0
  else
    let e : ℤ := max (Int.log 2 |q|) (-126)
    let ulp : ℚ := 2 ^ (e - 23)
    let r : ℚ := roundHalfEven (q / ulp) * ulp
    if |r| < 2 ^ (128 : ℤ) then some r else none

/-- What the item reports to its host: a changed signal with its argument, or a
repaint request `update()`. -/
inductive BezierEvent where
  | p1Changed (p : QPointF)
  | p2Changed (p : QPointF)
  | p3Changed (p : QPointF)
  | p4Changed (p : QPointF)
  | segmentCountChanged (count : Int)
  | update
deriving DecidableEq

/-- The item `BezierCurve`: its five members, the rectangle `boundingRect()`
supplied by the host, and the log of signals and repaint requests in order. -/
structure BezierCurve where
  m_p1 : QPointF
  m_p2 : QPointF
  m_p3 : QPointF
  m_p4 : QPointF
  m_segmentCount : Int
  boundingRect : QRectF
  events : List BezierEvent := []
deriving DecidableEq

namespace BezierCurve

/-- Constructor `BezierCurve::BezierCurve`, for an item whose host rectangle is
`boundingRect`. -/
def create (boundingRect : QRectF) : BezierCurve :=
  { m_p1 := ⟨0, 0⟩, m_p2 := ⟨1, 0⟩, m_p3 := ⟨0, 1⟩, m_p4 := ⟨1, 1⟩,
    m_segmentCount := 32, boundingRect := boundingRect }

/-- Setter `setP1`. -/
def setP1 (self : BezierCurve) (p : QPointF) : BezierCurve :=
  if p = self.m_p1 then self
  else { self with m_p1 := p, events := self.events ++ [.p1Changed p, .update] }

/-- Setter `setP2`. -/
def setP2 (self : BezierCurve) (p : QPointF) : BezierCurve :=
  if p = self.m_p2 then self
  else { self with m_p2 := p, events := self.events ++ [.p2Changed p, .update] }

/-- Setter `setP3`. -/
def setP3 (self : BezierCurve) (p : QPointF) : BezierCurve :=
  if p = self.m_p3 then self
  else { self with m_p3 := p, events := self.events ++ [.p3Changed p, .update] }

/-- Setter `setP4`. -/
def setP4 (self : BezierCurve) (p : QPointF) : BezierCurve :=
  if p = self.m_p4 then self
  else { self with m_p4 := p, events := self.events ++ [.p4Changed p, .update] }

/-- Setter `setSegmentCount`. -/
def setSegmentCount (self : BezierCurve) (count : Int) : BezierCurve :=
  if self.m_segmentCount = count then self
  else { self with m_segmentCount := count,
                   events := self.events ++ [.segmentCountChanged count, .update] }

/-- Body of the `for` loop of `updatePaintNode` at index `i`: the vertex passed to
`vertices[i].set(x, y)`.  `narrow` is the conversion of the `qreal` coordinate to
`float x` / `float y`. -/
def loopBodyWith (narrow : ℚ → Option ℚ) (self : BezierCurve) (bounds : QRectF)
    (i : Nat) : Option Point2D :=
  match qrealDiv (i : ℚ) ((self.m_segmentCount - 1 : Int) : ℚ) with
  | none => none
  | some t =>
    let invt : ℚ := 1 - t
    let pos : QPointF := (invt * invt * invt) * self.m_p1
                       + (3 * invt * invt * t) * self.m_p2
                       + (3 * invt * t * t) * self.m_p3
                       + (t * t * t) * self.m_p4
    let x : Option ℚ := narrow (bounds.x + pos.x * bounds.width)
    let y : Option ℚ := narrow (bounds.y + pos.y * bounds.height)
    match x, y with
    | some x, some y => some ⟨x, y⟩
    | _, _ => none

/-- The `for` loop of `updatePaintNode`: for `i = 0, ..., m_segmentCount - 1` in
order, writes the vertex of the loop body into slot `i`. -/
def writeVerticesWith (narrow : ℚ → Option ℚ) (self : BezierCurve) (bounds : QRectF)
    (vertices : List VertexSlot) : List VertexSlot :=
  (List.range self.m_segmentCount.toNat).foldl
    (fun vs i => vs.set i (.written (self.loopBodyWith narrow bounds i))) vertices

/-- Method `updatePaintNode(oldNode, _)`.  The node holds a pointer to its
geometry, so the vertices written through `geometry` are those of the returned
node; a reused node without geometry is a null dereference (`none`). -/
def updatePaintNodeWith (narrow : ℚ → Option ℚ) (self : BezierCurve)
    (oldNode : Option QSGGeometryNode) : Option QSGGeometryNode :=
  let prepared : Option (QSGGeometryNode × QSGGeometry) :=
    match oldNode with
    | none =>
      let node : QSGGeometryNode := {}
      let geometry := QSGGeometry.create self.m_segmentCount
      let geometry := geometry.setLineWidth 2
      let geometry := geometry.setDrawingMode GL_LINE_STRIP
      let node := { node with geometry := some geometry }
      let node := { node with ownsGeometry := true }
      let material : QSGFlatColorMaterial := {}
      let material := material.setColor { r := 255, g := 0, b := 0 }
      let node := { node with material := some material }
      let node := { node with ownsMaterial := true }
      some (node, geometry)
    | some node =>
      match node.geometry with
      | none => none
      | some geometry => some (node, geometry.allocate self.m_segmentCount)
  match prepared with
  | none => none
  | some (node, geometry) =>
    let bounds := self.boundingRect
    let vertices := self.writeVerticesWith narrow bounds geometry.vertexData
    some { node with geometry := some { geometry with vertexData := vertices } }

/-- The vertex in slot `i` of the node returned by `updatePaintNode`, when the
call returns and the slot was written with defined coordinates. -/
def paintedVertexWith (narrow : ℚ → Option ℚ) (self : BezierCurve)
    (oldNode : Option QSGGeometryNode) (i : Nat) : Option Point2D :=
  match self.updatePaintNodeWith narrow oldNode with
  | none => none
  | some node =>
    match node.geometry with
    | none => none
    | some geometry => geometry.vertexData[i]?.bind VertexSlot.vertex

/-- The loop body in exact arithmetic: the coordinates are kept as computed. -/
def loopBody (self : BezierCurve) (bounds : QRectF) (i : Nat) : Option Point2D :=
  self.loopBodyWith some bounds i

/-- The vertex loop in exact arithmetic. -/
def writeVertices (self : BezierCurve) (bounds : QRectF)
    (vertices : List VertexSlot) : List VertexSlot :=
  self.writeVerticesWith some bounds vertices

/-- Method `updatePaintNode` in exact arithmetic. -/
def updatePaintNode (self : BezierCurve) (oldNode : Option QSGGeometryNode) :
    Option QSGGeometryNode :=
  self.updatePaintNodeWith some oldNode

/-- The vertex in slot `i` of the node returned by `updatePaintNode` in exact
arithmetic. -/
def paintedVertex (self : BezierCurve) (oldNode : Option QSGGeometryNode) (i : Nat) :
    Option Point2D :=
  self.paintedVertexWith some oldNode i

/-- The vertex in slot `i` of the node returned by `updatePaintNode` as the machine
stores it, with the coordinates narrowed to `float`. -/
def paintedVertexFloat (self : BezierCurve) (oldNode : Option QSGGeometryNode)
    (i : Nat) : Option Point2D :=
  self.paintedVertexWith toFloat oldNode i

end BezierCurve

/-- Cubic Bezier polynomial as the specification writes it, for one coordinate:
`(1-t)^3*a + 3*(1-t)^2*t*b + 3*(1-t)*t^2*c + t^3*d`. -/
def specBezier (a b c d t : ℚ) : ℚ :=
  (1 - t) ^ 3 * a + 3 * (1 - t) ^ 2 * t * b + 3 * (1 - t) * t ^ 2 * c + t ^ 3 * d

/-- Vertex the specification assigns to parameter `t`: the Bezier point of the four
control points, scaled into the bounding rectangle. -/
def BezierCurve.specVertex (self : BezierCurve) (t : ℚ) : Point2D :=
  { x := self.boundingRect.x
      + specBezier self.m_p1.x self.m_p2.x self.m_p3.x self.m_p4.x t
        * self.boundingRect.width,
    y := self.boundingRect.y
      + specBezier self.m_p1.y self.m_p2.y self.m_p3.y self.m_p4.y t
        * self.boundingRect.height }

/-- Whether a control point has both coordinates in `[0, 1]`. -/
def QPointF.inUnitSquare (p : QPointF) : Prop :=
  0 ≤ p.x ∧ p.x ≤ 1 ∧ 0 ≤ p.y ∧ p.y ≤ 1

/-! ## Target direction (`qquicktargetdirection_p.h`) -/

/-- Pointer `QQuickItem*`: null is `none`, otherwise the address of the item. -/
abbrev QQuickItemPtr := Option Nat

/-- Value of a `qreal` (an IEEE double) as far as it is stored and compared: a NaN,
an infinity, or a finite value.  The two zeros, which compare equal, are the one
value `finite 0`. -/
inductive Qreal where
  | nan
  | posInf
  | negInf
  | finite (q : ℚ)
deriving DecidableEq

/-- Comparison `a != b` of two `qreal`s: a NaN compares unequal to every value,
itself included; otherwise the values are unequal when they differ. -/
def Qreal.ne (a b : Qreal) : Bool :=
  match a, b with
  | .nan, _ => true
  | _, .nan => true
  | a, b => decide (a ≠ b)

/-- Signals of `QQuickTargetDirection`, with their argument. -/
inductive TargetDirectionSignal where
  | targetXChanged (arg : Qreal)
  | targetYChanged (arg : Qreal)
  | targetVariationChanged (arg : Qreal)
  | magnitudeChanged (arg : Qreal)
  | proprotionalMagnitudeChanged (arg : Bool)
  | magnitudeVariationChanged (arg : Qreal)
  | targetItemChanged (arg : QQuickItemPtr)
deriving DecidableEq

/-- The seven members of `QQuickTargetDirection` and the log of emitted signals. -/
structure QQuickTargetDirection where
  m_targetX : Qreal
  m_targetY : Qreal
  m_targetVariation : Qreal
  m_proportionalMagnitude : Bool
  m_magnitude : Qreal
  m_magnitudeVariation : Qreal
  m_targetItem : QQuickItemPtr
  emitted : List TargetDirectionSignal := []
deriving DecidableEq

namespace QQuickTargetDirection

/-- Getter `targetX()`. -/
def targetX (self : QQuickTargetDirection) : Qreal := self.m_targetX

/-- Getter `targetY()`. -/
def targetY (self : QQuickTargetDirection) : Qreal := self.m_targetY

/-- Getter `targetVariation()`. -/
def targetVariation (self : QQuickTargetDirection) : Qreal := self.m_targetVariation

/-- Getter `magnitude()`. -/
def magnitude (self : QQuickTargetDirection) : Qreal := self.m_magnitude

/-- Getter `proportionalMagnitude()`. -/
def proportionalMagnitude (self : QQuickTargetDirection) : Bool :=
  self.m_proportionalMagnitude

/-- Getter `magnitudeVariation()`. -/
def magnitudeVariation (self : QQuickTargetDirection) : Qreal :=
  self.m_magnitudeVariation

/-- Getter `targetItem()`. -/
def targetItem (self : QQuickTargetDirection) : QQuickItemPtr := self.m_targetItem

/-- Slot `setTargetX`. -/
def setTargetX (self : QQuickTargetDirection) (arg : Qreal) : QQuickTargetDirection :=
  if Qreal.ne self.m_targetX arg then
    { self with m_targetX := arg, emitted := self.emitted ++ [.targetXChanged arg] }
  else self

/-- Slot `setTargetY`. -/
def setTargetY (self : QQuickTargetDirection) (arg : Qreal) : QQuickTargetDirection :=
  if Qreal.ne self.m_targetY arg then
    { self with m_targetY := arg, emitted := self.emitted ++ [.targetYChanged arg] }
  else self

/-- Slot `setTargetVariation`. -/
def setTargetVariation (self : QQuickTargetDirection) (arg : Qreal) :
    QQuickTargetDirection :=
  if Qreal.ne self.m_targetVariation arg then
    { self with m_targetVariation := arg,
                emitted := self.emitted ++ [.targetVariationChanged arg] }
  else self

/-- Slot `setMagnitude`. -/
def setMagnitude (self : QQuickTargetDirection) (arg : Qreal) : QQuickTargetDirection :=
  if Qreal.ne self.m_magnitude arg then
    { self with m_magnitude := arg, emitted := self.emitted ++ [.magnitudeChanged arg] }
  else self

/-- Slot `setProportionalMagnitude`. -/
def setProportionalMagnitude (self : QQuickTargetDirection) (arg : Bool) :
    QQuickTargetDirection :=
  if self.m_proportionalMagnitude ≠ arg then
    { self with m_proportionalMagnitude := arg,
                emitted := self.emitted ++ [.proprotionalMagnitudeChanged arg] }
  else self

/-- Slot `setMagnitudeVariation`. -/
def setMagnitudeVariation (self : QQuickTargetDirection) (arg : Qreal) :
    QQuickTargetDirection :=
  if Qreal.ne self.m_magnitudeVariation arg then
    { self with m_magnitudeVariation := arg,
                emitted := self.emitted ++ [.magnitudeVariationChanged arg] }
  else self

/-- Slot `setTargetItem`. -/
def setTargetItem (self : QQuickTargetDirection) (arg : QQuickItemPtr) :
    QQuickTargetDirection :=
  if self.m_targetItem ≠ arg then
    { self with m_targetItem := arg,
                emitted := self.emitted ++ [.targetItemChanged arg] }
  else self

end QQuickTargetDirection

/-! ## System palette (`tst_qquicksystempalette.cpp`) -/

/-- Colour groups `QPalette::ColorGroup` the test covers. -/
inductive ColorGroup where
  | Active
  | Inactive
  | Disabled
deriving DecidableEq, Repr

/-- The fourteen colour roles the test covers. -/
inductive ColorRole where
  | Window
  | WindowText
  | Base
  | Text
  | AlternateBase
  | Button
  | ButtonText
  | Light
  | Midlight
  | Dark
  | Mid
  | Shadow
  | Highlight
  | HighlightedText
deriving DecidableEq, Repr

/-- Host palette `QPalette`: a colour for each group and role. -/
structure QPalette where
  color : ColorGroup → ColorRole → QColor

/-- Setter `QPalette::setColor(group, role, color)`. -/
def QPalette.setColor (p : QPalette) (group : ColorGroup) (role : ColorRole)
    (c : QColor) : QPalette :=
  { color := fun g r => if g = group ∧ r = role then c else p.color g r }

/-- Modelled from the spec: the class `QQuickSystemPalette` is outside the shown
sources (only its test is shown).  Per the spec its exposed values equal the
corresponding colours of the host palette for its colour group, and follow the
host palette when that changes: the object holds the host palette it reads from
and its colour group. -/
structure QQuickSystemPalette where
  palette : QPalette
  group : ColorGroup

namespace QQuickSystemPalette

/-- Modelled from the spec: a fresh `SystemPalette { }` reads the host
application palette; its colour group is `Active`. -/
def create (application : QPalette) : QQuickSystemPalette :=
  { palette := application, group := .Active }

/-- Modelled from the spec: getter `colorGroup()`. -/
def colorGroup (self : QQuickSystemPalette) : ColorGroup := self.group

/-- Modelled from the spec: setter `setColorGroup`. -/
def setColorGroup (self : QQuickSystemPalette) (group : ColorGroup) :
    QQuickSystemPalette :=
  { self with group := group }

/-- Modelled from the spec: reaction to a change of the host application palette;
the object reads the new palette from then on. -/
def applicationPaletteChange (self : QQuickSystemPalette) (application : QPalette) :
    QQuickSystemPalette :=
  { self with palette := application }

/-- Modelled from the spec: exposed value `window`. -/
def window (self : QQuickSystemPalette) : QColor := self.palette.color self.group .Window

/-- Modelled from the spec: exposed value `windowText`. -/
def windowText (self : QQuickSystemPalette) : QColor :=
  self.palette.color self.group .WindowText

/-- Modelled from the spec: exposed value `base`. -/
def base (self : QQuickSystemPalette) : QColor := self.palette.color self.group .Base

/-- Modelled from the spec: exposed value `text`. -/
def text (self : QQuickSystemPalette) : QColor := self.palette.color self.group .Text

/-- Modelled from the spec: exposed value `alternateBase`. -/
def alternateBase (self : QQuickSystemPalette) : QColor :=
  self.palette.color self.group .AlternateBase

/-- Modelled from the spec: exposed value `button`. -/
def button (self : QQuickSystemPalette) : QColor := self.palette.color self.group .Button

/-- Modelled from the spec: exposed value `buttonText`. -/
def buttonText (self : QQuickSystemPalette) : QColor :=
  self.palette.color self.group .ButtonText

/-- Modelled from the spec: exposed value `light`. -/
def light (self : QQuickSystemPalette) : QColor := self.palette.color self.group .Light

/-- Modelled from the spec: exposed value `midlight`. -/
def midlight (self : QQuickSystemPalette) : QColor :=
  self.palette.color self.group .Midlight

/-- Modelled from the spec: exposed value `dark`. -/
def dark (self : QQuickSystemPalette) : QColor := self.palette.color self.group .Dark

/-- Modelled from the spec: exposed value `mid`. -/
def mid (self : QQuickSystemPalette) : QColor := self.palette.color self.group .Mid

/-- Modelled from the spec: exposed value `shadow`. -/
def shadow (self : QQuickSystemPalette) : QColor := self.palette.color self.group .Shadow

/-- Modelled from the spec: exposed value `highlight`. -/
def highlight (self : QQuickSystemPalette) : QColor :=
  self.palette.color self.group .Highlight

/-- Modelled from the spec: exposed value `highlightedText`. -/
def highlightedText (self : QQuickSystemPalette) : QColor :=
  self.palette.color self.group .HighlightedText

/-- The value the object exposes for a role, through the getter of that role. -/
def exposed (self : QQuickSystemPalette) : ColorRole → QColor
  | .Window => self.window
  | .WindowText => self.windowText
  | .Base => self.base
  | .Text => self.text
  | .AlternateBase => self.alternateBase
  | .Button => self.button
  | .ButtonText => self.buttonText
  | .Light => self.light
  | .Midlight => self.midlight
  | .Dark => self.dark
  | .Mid => self.mid
  | .Shadow => self.shadow
  | .Highlight => self.highlight
  | .HighlightedText => self.highlightedText

end QQuickSystemPalette

/-! ## Sample inputs -/

namespace Sample

/-- A leaf object `Leaf {}` at line 3, column 5. -/
def leaf : Object :=
  .mk "Leaf" ⟨⟨3, 5⟩, ⟨3, 12⟩⟩ [] none

/-- A property `items` at line 2, column 3 holding a literal and an object value. -/
def items : Property :=
  .mk "items" ⟨⟨2, 3⟩, ⟨4, 1⟩⟩
    [.mk .Unknown (.Number 7) none, .mk .Unknown .Invalid (some leaf)] none

/-- A property `title` at line 5, column 3 holding one string literal. -/
def title : Property :=
  .mk "title" ⟨⟨5, 3⟩, ⟨5, 20⟩⟩ [.mk .Unknown (.String "hello") none] none

/-- A root object `Root` at line 1, column 1 with one property and a default property. -/
def root : Object :=
  .mk "Root" ⟨⟨1, 1⟩, ⟨6, 1⟩⟩ [items] (some title)

/-- A parser compiling `root` that already holds one error. -/
def parser : QDeclarativeCustomParser :=
  { object := some root, exceptions := [{ description := "old", line := 9, column := 9 }] }

/-- A converted property located at line 2, column 3. -/
def customProperty : QDeclarativeCustomParserProperty :=
  .mk "items" true ⟨2, 3⟩ []

/-- A converted node located at line 3, column 5. -/
def customNode : QDeclarativeCustomParserNode :=
  .mk "Leaf" [] ⟨3, 5⟩

/-- Three calls, one of each overload. -/
def calls : List QDeclarativeCustomParser.ErrorCall :=
  [.ofDescription "a", .ofProperty customProperty "b", .ofNode customNode "c"]

/-- The parser after `clearErrors` and the three calls. -/
def afterCalls : QDeclarativeCustomParser :=
  { object := some root,
    exceptions := [{ description := "a", line := 1, column := 1 },
                   { description := "b", line := 2, column := 3 },
                   { description := "c", line := 3, column := 5 }] }

/-- A curve on the unit rectangle with two segments whose first control point
`(2, 0)` lies outside the unit square. -/
def wideCurve : BezierCurve :=
  { m_p1 := ⟨2, 0⟩, m_p2 := ⟨1, 0⟩, m_p3 := ⟨0, 1⟩, m_p4 := ⟨1, 1⟩,
    m_segmentCount := 2, boundingRect := ⟨0, 0, 1, 1⟩ }

/-- The default curve with three segments on the rectangle `(10, 20, 100, 50)`. -/
def curve3 : BezierCurve :=
  { m_p1 := ⟨0, 0⟩, m_p2 := ⟨1, 0⟩, m_p3 := ⟨0, 1⟩, m_p4 := ⟨1, 1⟩,
    m_segmentCount := 3, boundingRect := ⟨10, 20, 100, 50⟩ }

/-- A node as a previous repaint may have left it: a geometry of two stale
vertices, line width 5, triangle-strip mode, and a white material. -/
def usedNode : QSGGeometryNode :=
  { geometry := some { vertexCount := 2, lineWidth := 5,
                       drawingMode := GL_TRIANGLE_STRIP,
                       vertexData := [.written (some ⟨7, 7⟩),
                                      .written (some ⟨8, 8⟩)] },
    material := some {}, ownsGeometry := true, ownsMaterial := false }

end Sample

/-! ## Divisor and Bernstein weights of the vertex loop -/

/-- The divisor `qreal(m_segmentCount - 1)` of the loop body of `updatePaintNode`;
it is the same for every index. -/
def BezierCurve.divisor (self : BezierCurve) : ℚ :=
  ((self.m_segmentCount - 1 : Int) : ℚ)

/-- The four Bernstein weights `(1-t)^3`, `3(1-t)^2 t`, `3(1-t) t^2`, `t^3` as the
specification writes them. -/
def bernsteinWeights (t : ℚ) : ℚ × ℚ × ℚ × ℚ :=
  ((1 - t) ^ 3, 3 * (1 - t) ^ 2 * t, 3 * (1 - t) * t ^ 2, t ^ 3)

/-! ## Further sample inputs -/

namespace Sample

/-- A parser with no object under compilation that already holds one error. -/
def idleParser : QDeclarativeCustomParser :=
  { object := none, exceptions := [{ description := "old", line := 9, column := 9 }] }

/-- A property `anchors` at line 7, column 3 whose nested object value is `root`;
it also carries one literal in its value list. -/
def anchors : Property :=
  .mk "anchors" ⟨⟨7, 3⟩, ⟨9, 1⟩⟩ [.mk .Unknown (.Number 1) none] (some root)

/-- The default control points (all in the unit square) with two segments on the
rectangle `(0, 0, 33554435, 1)`, whose width `2^25 + 3` is no `float`. -/
def hugeCurve : BezierCurve :=
  { m_p1 := ⟨0, 0⟩, m_p2 := ⟨1, 0⟩, m_p3 := ⟨0, 1⟩, m_p4 := ⟨1, 1⟩,
    m_segmentCount := 2, boundingRect := ⟨0, 0, 33554435, 1⟩ }

/-- The curve the constructor builds (default control points, 32 segments) on the
rectangle `(0, 0, 16777219, 1)`, whose width `2^24 + 3` is no `float`. -/
def defaultCurveWide : BezierCurve :=
  BezierCurve.create ⟨0, 0, 16777219, 1⟩

/-- A target direction aiming at `(3, 4)` with no item, which has emitted
nothing yet. -/
def direction : QQuickTargetDirection :=
  { m_targetX := .finite 3, m_targetY := .finite 4, m_targetVariation := .finite 0,
    m_proportionalMagnitude := false, m_magnitude := .finite 1,
    m_magnitudeVariation := .finite 0, m_targetItem := none }

/-- The default control points with a single segment on the rectangle
`(10, 20, 100, 50)`. -/
def curve1 : BezierCurve :=
  { m_p1 := ⟨0, 0⟩, m_p2 := ⟨1, 0⟩, m_p3 := ⟨0, 1⟩, m_p4 := ⟨1, 1⟩,
    m_segmentCount := 1, boundingRect := ⟨10, 20, 100, 50⟩ }

end Sample

/-! ## Theorems -/

/-! ### Helper lemmas: the conversion loops are maps -/

namespace QDeclarativeCustomParserNodePrivate

theorem fromProperties_fst (ps : List Property) :
    (fromProperties ps).1 = ps.map (fun p => (fromProperty p).1) := by
  induction ps with
  | nil => simp [fromProperties]
  | cons p ps ih => simp [fromProperties, ih]

theorem fromValues_fst (vs : List Value) :
    (fromValues vs).1 = vs.map (fun v =>
      match v.object with
      | some o => QVariant.node (fromObject o).1
      | none => QVariant.variant v.value) := by
  induction vs with
  | nil => simp [fromValues]
  | cons v vs ih =>
    obtain ⟨ty, value, object⟩ := v
    cases object with
    | some o => simp [fromValues, ih, Value.object]
    | none => simp [fromValues, ih, Value.object, Value.value]

end QDeclarativeCustomParserNodePrivate

/-! ### Helper lemmas: the error accumulator -/

namespace QDeclarativeCustomParser

theorem error_of_object (self : QDeclarativeCustomParser) (o : Object) (d : String)
    (h : self.object = some o) :
    self.error d = some { self with exceptions := self.exceptions ++
      [{ description := d, line := o.location.start.line,
         column := o.location.start.column }] } := by
  simp [QDeclarativeCustomParser.error, h, QDeclarativeError.setLine,
    QDeclarativeError.setColumn, QDeclarativeError.setDescription]

theorem ErrorCall.run_exceptions (self next : QDeclarativeCustomParser) (c : ErrorCall)
    (h : c.run self = some next) :
    next.object = self.object ∧
      ∃ e : QDeclarativeError,
        next.exceptions = self.exceptions ++ [e] ∧ e.description = c.description := by
  cases c with
  | ofDescription d =>
    cases ho : self.object with
    | none => simp [ErrorCall.run, error, ho] at h
    | some o =>
      rw [ErrorCall.run, error_of_object self o d ho, Option.some.injEq] at h
      subst h
      exact ⟨ho, _, rfl, rfl⟩
  | ofProperty p d =>
    simp only [ErrorCall.run, errorProperty, Option.some.injEq] at h
    subst h
    exact ⟨rfl, _, rfl, rfl⟩
  | ofNode n d =>
    simp only [ErrorCall.run, errorNode, Option.some.injEq] at h
    subst h
    exact ⟨rfl, _, rfl, rfl⟩

theorem runCalls_exceptions (cs : List ErrorCall) :
    ∀ self final : QDeclarativeCustomParser, self.runCalls cs = some final →
      ∃ es : List QDeclarativeError,
        final.exceptions = self.exceptions ++ es ∧
          es.map (fun e => e.description) = cs.map (fun c => c.description) := by
  induction cs with
  | nil =>
    intro self final h
    simp only [runCalls, Option.some.injEq] at h
    subst h
    exact ⟨[], by simp, rfl⟩
  | cons c cs ih =>
    intro self final h
    simp only [runCalls] at h
    cases hc : c.run self with
    | none => simp [hc] at h
    | some next =>
      simp only [hc] at h
      obtain ⟨-, e, he, hd⟩ := ErrorCall.run_exceptions self next c hc
      obtain ⟨es, hes, hm⟩ := ih next final h
      refine ⟨e :: es, ?_, ?_⟩
      · rw [hes, he]; simp
      · simp [hd, hm]

theorem runCalls_isSome (cs : List ErrorCall) :
    ∀ self : QDeclarativeCustomParser,
      (self.object.isSome ∨ ∀ c ∈ cs, c.needsObject = false) →
        (self.runCalls cs).isSome := by
  induction cs with
  | nil => intro self _; simp [runCalls]
  | cons c cs ih =>
    intro self h
    have hrun : ∃ next, c.run self = some next ∧ next.object = self.object := by
      cases c with
      | ofDescription d =>
        cases ho : self.object with
        | none =>
          rcases h with h | h
          · simp [ho] at h
          · have := h (.ofDescription d) (by simp)
            simp [ErrorCall.needsObject] at this
        | some o => exact ⟨_, error_of_object self o d ho, ho⟩
      | ofProperty p d => exact ⟨_, rfl, rfl⟩
      | ofNode n d => exact ⟨_, rfl, rfl⟩
    obtain ⟨next, hnext, hobj⟩ := hrun
    simp only [runCalls, hnext]
    apply ih
    rcases h with h | h
    · left; rw [hobj]; exact h
    · right; intro c' hc'; exact h c' (by simp [hc'])

end QDeclarativeCustomParser

/-! ### Claims on the error accumulator -/

/-- C1: for every description `d`, each `error` overload records (appends) an error
whose description is `d` and whose line and column are those of the offending
thing: `error(d)` takes the start line and column of the object under compilation,
`error(prop, d)` those of `prop.location()`, `error(node, d)` those of
`node.location()`. -/
theorem C1_error_records_location_and_description (d : String) :
    (∀ (self : QDeclarativeCustomParser) (o : Object), self.object = some o →
        self.error d = some { self with exceptions := self.exceptions ++
          [{ description := d, line := o.location.start.line,
             column := o.location.start.column }] }) ∧
    (∀ (self : QDeclarativeCustomParser) (prop : QDeclarativeCustomParserProperty),
        self.errorProperty prop d = { self with exceptions := self.exceptions ++
          [{ description := d, line := prop.location.line,
             column := prop.location.column }] }) ∧
    (∀ (self : QDeclarativeCustomParser) (node : QDeclarativeCustomParserNode),
        self.errorNode node d = { self with exceptions := self.exceptions ++
          [{ description := d, line := node.location.line,
             column := node.location.column }] }) := by
  refine ⟨?_, ?_, ?_⟩
  · intro self o h
    exact QDeclarativeCustomParser.error_of_object self o d h
  · intro self prop
    simp [QDeclarativeCustomParser.errorProperty, QDeclarativeError.setLine,
      QDeclarativeError.setColumn, QDeclarativeError.setDescription]
  · intro self node
    simp [QDeclarativeCustomParser.errorNode, QDeclarativeError.setLine,
      QDeclarativeError.setColumn, QDeclarativeError.setDescription]

/-- Witness of C1 on the sample parser: `error("bad")` while `Root` (line 1,
column 1) is under compilation appends the error `("bad", 1, 1)` after the
error already held. -/
theorem C1_error_records_location_and_description_witness :
    Sample.parser.object = some Sample.root ∧
    Sample.parser.error "bad" = some
      { object := some Sample.root,
        exceptions := [{ description := "old", line := 9, column := 9 },
                       { description := "bad", line := 1, column := 1 }] } :=
  ⟨rfl, (C1_error_records_location_and_description "bad").1 Sample.parser Sample.root rfl⟩

/-- C2: the error accumulator is an ordered, append-only list between clears.
Every successful `error` call of any overload appends exactly one entry (carrying
the description of the call) at the end and keeps the earlier entries in place;
`clearErrors` empties the list whatever it held; after `clearErrors` and any
sequence of `n` calls the list has exactly `n` entries and the `i`-th entry carries
the description of the `i`-th call.  The sequence runs to completion whenever an
object is under compilation or no call is of the overload that needs one. -/
theorem C2_error_list_ordered_append_only (self : QDeclarativeCustomParser) :
    (∀ (c : QDeclarativeCustomParser.ErrorCall) (next : QDeclarativeCustomParser),
        c.run self = some next →
          ∃ e : QDeclarativeError,
            next.exceptions = self.exceptions ++ [e] ∧ e.description = c.description) ∧
    self.clearErrors.exceptions = [] ∧
    (∀ (cs : List QDeclarativeCustomParser.ErrorCall) (final : QDeclarativeCustomParser),
        self.clearErrors.runCalls cs = some final →
          final.exceptions.length = cs.length ∧
          final.exceptions.map (fun e => e.description)
            = cs.map (fun c => c.description) ∧
          ∀ i : Nat, i < cs.length →
            (final.exceptions.get? i).map (fun e => e.description)
              = (cs.get? i).map (fun c => c.description)) ∧
    (∀ cs : List QDeclarativeCustomParser.ErrorCall,
        (self.object.isSome ∨ ∀ c ∈ cs, c.needsObject = false) →
          (self.clearErrors.runCalls cs).isSome) := by
  refine ⟨?_, rfl, ?_, ?_⟩
  · intro c next h
    exact (QDeclarativeCustomParser.ErrorCall.run_exceptions self next c h).2
  · intro cs final h
    obtain ⟨es, hes, hm⟩ := QDeclarativeCustomParser.runCalls_exceptions cs _ final h
    have hfx : final.exceptions = es := by
      simpa [QDeclarativeCustomParser.clearErrors] using hes
    have hmap : final.exceptions.map (fun e => e.description)
        = cs.map (fun c => c.description) := by rw [hfx]; exact hm
    refine ⟨?_, hmap, ?_⟩
    · have := congrArg List.length hmap
      simpa using this
    · intro i _
      have := congrArg (fun l => l.get? i) hmap
      simpa using this
  · intro cs h
    exact QDeclarativeCustomParser.runCalls_isSome cs _ h

/-- Witness of C2 on the sample parser: after `clearErrors`, the calls
`error("a")`, `error(prop, "b")`, `error(node, "c")` leave exactly three entries
described `a`, `b`, `c` in that order. -/
theorem C2_error_list_ordered_append_only_witness :
    Sample.parser.clearErrors.runCalls Sample.calls = some Sample.afterCalls ∧
    Sample.afterCalls.exceptions.length = 3 ∧
    Sample.afterCalls.exceptions.map (fun e => e.description) = ["a", "b", "c"] ∧
    (Sample.parser.clearErrors.runCalls Sample.calls).isSome :=
  ⟨rfl,
   ((C2_error_list_ordered_append_only Sample.parser).2.2.1
      Sample.calls Sample.afterCalls rfl).1,
   ((C2_error_list_ordered_append_only Sample.parser).2.2.1
      Sample.calls Sample.afterCalls rfl).2.1,
   (C2_error_list_ordered_append_only Sample.parser).2.2.2 Sample.calls (Or.inl rfl)⟩

/-! ### Claims on the node conversion -/

/-- C3: for every parsed object tree `root`, `fromObject(root)` returns a node whose
name is the type name of `root`, whose location is `root.location.start`, and whose
property list is the `fromProperty` conversion of the properties of `root` in
their order, followed by the conversion of the default property as last element
exactly when one is set; so its length is the number of properties plus 1 or 0. -/
theorem C3_fromObject_mirrors_root (root : Object) :
    (QDeclarativeCustomParserNodePrivate.fromObject root).1.name = root.typeName ∧
    (QDeclarativeCustomParserNodePrivate.fromObject root).1.location
      = root.location.start ∧
    (QDeclarativeCustomParserNodePrivate.fromObject root).1.properties
      = root.properties.map
          (fun p => (QDeclarativeCustomParserNodePrivate.fromProperty p).1)
        ++ (match root.defaultProperty with
            | some dp => [(QDeclarativeCustomParserNodePrivate.fromProperty dp).1]
            | none => []) ∧
    (QDeclarativeCustomParserNodePrivate.fromObject root).1.properties.length
      = root.properties.length + (if root.defaultProperty.isSome then 1 else 0) := by
  obtain ⟨typeName, location, properties, defaultProperty⟩ := root
  cases defaultProperty with
  | none =>
    simp [QDeclarativeCustomParserNodePrivate.fromObject,
      QDeclarativeCustomParserNodePrivate.fromProperties_fst,
      QDeclarativeCustomParserNode.name, QDeclarativeCustomParserNode.location,
      QDeclarativeCustomParserNode.properties, Object.typeName, Object.location,
      Object.properties, Object.defaultProperty]
  | some dp =>
    simp [QDeclarativeCustomParserNodePrivate.fromObject,
      QDeclarativeCustomParserNodePrivate.fromProperties_fst,
      QDeclarativeCustomParserNode.name, QDeclarativeCustomParserNode.location,
      QDeclarativeCustomParserNode.properties, Object.typeName, Object.location,
      Object.properties, Object.defaultProperty]

/-- C4: for every parsed property `p` without nested object value (`p->value` null),
`fromProperty(p)` returns a property whose name is the name of `p`, whose location
is `p.location.start`, and whose `assignedValues` has exactly one entry per value of
`p->values` in the same order: the node `fromObject(v->object)` when the value
holds an object, and its literal variant otherwise. -/
theorem C4_fromProperty_without_nested_object (p : Property) (h : p.value = none) :
    (QDeclarativeCustomParserNodePrivate.fromProperty p).1.name = p.name ∧
    (QDeclarativeCustomParserNodePrivate.fromProperty p).1.location
      = p.location.start ∧
    (QDeclarativeCustomParserNodePrivate.fromProperty p).1.assignedValues
      = p.values.map (fun v =>
          match v.object with
          | some o => QVariant.node (QDeclarativeCustomParserNodePrivate.fromObject o).1
          | none => QVariant.variant v.value) ∧
    (QDeclarativeCustomParserNodePrivate.fromProperty p).1.assignedValues.length
      = p.values.length := by
  obtain ⟨name, location, values, value⟩ := p
  simp only [Property.value] at h
  subst h
  simp [QDeclarativeCustomParserNodePrivate.fromProperty,
    QDeclarativeCustomParserNodePrivate.fromValues_fst,
    QDeclarativeCustomParserProperty.name, QDeclarativeCustomParserProperty.location,
    QDeclarativeCustomParserProperty.assignedValues, Property.name, Property.location,
    Property.values]

/-- Witness of C4 on the sample property `items` (a literal `7` and a `Leaf`
object): the assigned values are the literal variant and the node of `Leaf`. -/
theorem C4_fromProperty_without_nested_object_witness :
    Sample.items.value = none ∧
    (QDeclarativeCustomParserNodePrivate.fromProperty Sample.items).1.name = "items" ∧
    (QDeclarativeCustomParserNodePrivate.fromProperty Sample.items).1.location
      = ⟨2, 3⟩ ∧
    (QDeclarativeCustomParserNodePrivate.fromProperty Sample.items).1.assignedValues
      = [QVariant.variant (.Number 7), QVariant.node (.mk "Leaf" [] ⟨3, 5⟩)] :=
  ⟨rfl,
   (C4_fromProperty_without_nested_object Sample.items rfl).1,
   (C4_fromProperty_without_nested_object Sample.items rfl).2.1,
   (C4_fromProperty_without_nested_object Sample.items rfl).2.2.1⟩


/-! ### Helper lemmas: the vertex loop -/

/-- A counted loop that stores `f i` into slot `i` for `i < k` keeps the length,
leaves `f i` in every slot below `k` and keeps the slots from `k` on. -/
theorem foldl_set_range {α : Type} (f : Nat → α) (k : Nat) (vs : List α) :
    ((List.range k).foldl (fun acc i => acc.set i (f i)) vs).length = vs.length ∧
    ∀ i : Nat, i < vs.length →
      ((List.range k).foldl (fun acc i => acc.set i (f i)) vs)[i]?
        = if i < k then some (f i) else vs[i]? := by
  induction k with
  | zero => simp
  | succ k ih =>
    obtain ⟨hlen, hget⟩ := ih
    rw [List.range_succ, List.foldl_append]
    simp only [List.foldl_cons, List.foldl_nil, List.length_set]
    refine ⟨hlen, ?_⟩
    intro i hi
    rw [List.getElem?_set]
    by_cases hki : k = i
    · subst hki
      simp [hlen, hi]
    · rw [if_neg hki, hget i hi]
      by_cases h1 : i < k
      · simp [h1, Nat.lt_succ_of_lt h1]
      · have h2 : ¬ i < k + 1 := by omega
        simp [h1, h2]

namespace BezierCurve

/-- The node built by `updatePaintNode` when there is no old node. -/
theorem updatePaintNodeWith_none (narrow : ℚ → Option ℚ) (self : BezierCurve) :
    self.updatePaintNodeWith narrow none = some
      { geometry := some
          { vertexCount := self.m_segmentCount, lineWidth := 2,
            drawingMode := GL_LINE_STRIP,
            vertexData := self.writeVerticesWith narrow self.boundingRect
              (List.replicate self.m_segmentCount.toNat .unwritten) },
        material := some { color := { r := 255, g := 0, b := 0 } },
        ownsGeometry := true, ownsMaterial := true } := rfl

/-- The node returned by `updatePaintNode` when the old node has a geometry. -/
theorem updatePaintNodeWith_some (narrow : ℚ → Option ℚ) (self : BezierCurve)
    (n : QSGGeometryNode) (g : QSGGeometry) (hg : n.geometry = some g) :
    self.updatePaintNodeWith narrow (some n) = some
      { n with
        geometry := some
          ({ g with
             vertexCount := self.m_segmentCount
             vertexData := self.writeVerticesWith narrow self.boundingRect
               (List.replicate self.m_segmentCount.toNat .unwritten) } :
            QSGGeometry) } := by
  simp [updatePaintNodeWith, hg, QSGGeometry.allocate]

/-- The vertex loop on fresh storage keeps the length and leaves in slot `i` the
written vertex of the loop body, for every `i` below the segment count. -/
theorem writeVerticesWith_fresh (narrow : ℚ → Option ℚ) (self : BezierCurve) :
    (self.writeVerticesWith narrow self.boundingRect
        (List.replicate self.m_segmentCount.toNat .unwritten)).length
      = self.m_segmentCount.toNat ∧
    ∀ i : Nat, i < self.m_segmentCount.toNat →
      (self.writeVerticesWith narrow self.boundingRect
        (List.replicate self.m_segmentCount.toNat .unwritten))[i]?
        = some (.written (self.loopBodyWith narrow self.boundingRect i)) := by
  have h := foldl_set_range
    (fun i => VertexSlot.written (self.loopBodyWith narrow self.boundingRect i))
    self.m_segmentCount.toNat
    (List.replicate self.m_segmentCount.toNat VertexSlot.unwritten)
  refine ⟨?_, ?_⟩
  · simpa [writeVerticesWith] using h.1
  · intro i hi
    have h2 := h.2 i (by simpa using hi)
    simpa [writeVerticesWith, hi] using h2

/-- The node `updatePaintNode` returns when the old node is usable: it exists, has
a geometry with `m_segmentCount` vertices, and slot `i` was written with the vertex
of the loop body for every `i` below the segment count. -/
theorem updatePaintNodeWith_vertices (narrow : ℚ → Option ℚ) (self : BezierCurve)
    (oldNode : Option QSGGeometryNode)
    (hold : ∀ n, oldNode = some n → n.geometry ≠ none) :
    ∃ node geometry, self.updatePaintNodeWith narrow oldNode = some node ∧
      node.geometry = some geometry ∧
      geometry.vertexCount = self.m_segmentCount ∧
      geometry.vertexData.length = self.m_segmentCount.toNat ∧
      ∀ i : Nat, i < self.m_segmentCount.toNat →
        geometry.vertexData[i]?
          = some (.written (self.loopBodyWith narrow self.boundingRect i)) := by
  obtain ⟨hlen, key⟩ := self.writeVerticesWith_fresh narrow
  cases oldNode with
  | none =>
    exact ⟨_, _, self.updatePaintNodeWith_none narrow, rfl, rfl, hlen, key⟩
  | some n =>
    cases hg : n.geometry with
    | none => exact absurd hg (hold n rfl)
    | some g =>
      exact ⟨_, _, self.updatePaintNodeWith_some narrow n g hg, rfl, rfl, hlen, key⟩

theorem paintedVertexWith_eq_loopBodyWith (narrow : ℚ → Option ℚ) (self : BezierCurve)
    (oldNode : Option QSGGeometryNode)
    (hold : ∀ n, oldNode = some n → n.geometry ≠ none)
    (i : Nat) (hi : (i : Int) < self.m_segmentCount) :
    self.paintedVertexWith narrow oldNode i
      = self.loopBodyWith narrow self.boundingRect i := by
  obtain ⟨node, geometry, hret, hgeo, -, -, hv⟩ :=
    self.updatePaintNodeWith_vertices narrow oldNode hold
  have hi2 : i < self.m_segmentCount.toNat := by omega
  simp [paintedVertexWith, hret, hgeo, hv i hi2, VertexSlot.vertex]

/-- The node built by `updatePaintNode` in exact arithmetic when there is no old
node. -/
theorem updatePaintNode_none (self : BezierCurve) :
    self.updatePaintNode none = some
      { geometry := some
          { vertexCount := self.m_segmentCount, lineWidth := 2,
            drawingMode := GL_LINE_STRIP,
            vertexData := self.writeVertices self.boundingRect
              (List.replicate self.m_segmentCount.toNat .unwritten) },
        material := some { color := { r := 255, g := 0, b := 0 } },
        ownsGeometry := true, ownsMaterial := true } := rfl

/-- The node returned by `updatePaintNode` in exact arithmetic when the old node
has a geometry. -/
theorem updatePaintNode_some (self : BezierCurve) (n : QSGGeometryNode)
    (g : QSGGeometry) (hg : n.geometry = some g) :
    self.updatePaintNode (some n) = some
      { n with
        geometry := some
          ({ g with
             vertexCount := self.m_segmentCount
             vertexData := self.writeVertices self.boundingRect
               (List.replicate self.m_segmentCount.toNat .unwritten) } :
            QSGGeometry) } :=
  self.updatePaintNodeWith_some some n g hg

theorem updatePaintNode_vertices (self : BezierCurve) (oldNode : Option QSGGeometryNode)
    (hold : ∀ n, oldNode = some n → n.geometry ≠ none) :
    ∃ node geometry, self.updatePaintNode oldNode = some node ∧
      node.geometry = some geometry ∧
      geometry.vertexCount = self.m_segmentCount ∧
      geometry.vertexData.length = self.m_segmentCount.toNat ∧
      ∀ i : Nat, i < self.m_segmentCount.toNat →
        geometry.vertexData[i]?
          = some (.written (self.loopBody self.boundingRect i)) :=
  self.updatePaintNodeWith_vertices some oldNode hold

theorem paintedVertex_eq_loopBody (self : BezierCurve)
    (oldNode : Option QSGGeometryNode)
    (hold : ∀ n, oldNode = some n → n.geometry ≠ none)
    (i : Nat) (hi : (i : Int) < self.m_segmentCount) :
    self.paintedVertex oldNode i = self.loopBody self.boundingRect i :=
  self.paintedVertexWith_eq_loopBodyWith some oldNode hold i hi

end BezierCurve

theorem QPointF.smul_def (c : ℚ) (p : QPointF) :
    (c * p : QPointF) = ⟨p.xp * c, p.yp * c⟩ := rfl

theorem QPointF.add_def (p q : QPointF) :
    p + q = ⟨p.xp + q.xp, p.yp + q.yp⟩ := rfl

namespace BezierCurve

/-- With at least two segments the loop body at index `i` yields the vertex the
specification assigns to `t = i / (m_segmentCount - 1)`. -/
theorem loopBody_eq_specVertex (self : BezierCurve) (hn : 2 ≤ self.m_segmentCount)
    (i : Nat) :
    self.loopBody self.boundingRect i
      = some (self.specVertex ((i : ℚ) / ((self.m_segmentCount : ℚ) - 1))) := by
  have hne : (self.m_segmentCount : ℚ) - 1 ≠ 0 := by
    have h2 : (2 : ℚ) ≤ (self.m_segmentCount : ℚ) := by exact_mod_cast hn
    intro h0
    linarith
  have hcast : ((self.m_segmentCount - 1 : Int) : ℚ) = (self.m_segmentCount : ℚ) - 1 := by
    push_cast; ring
  unfold loopBody loopBodyWith qrealDiv
  rw [hcast, if_neg hne]
  simp only [specVertex, specBezier, QPointF.x, QPointF.y, QPointF.smul_def,
    QPointF.add_def, Option.some.injEq, Point2D.mk.injEq]
  constructor <;> ring

end BezierCurve

/-- A Bernstein combination of four numbers of `[0, 1]` at a parameter of `[0, 1]`
lies in `[0, 1]`. -/
theorem specBezier_mem_unit (a b c d t : ℚ) (ht0 : 0 ≤ t) (ht1 : t ≤ 1)
    (ha0 : 0 ≤ a) (ha1 : a ≤ 1) (hb0 : 0 ≤ b) (hb1 : b ≤ 1)
    (hc0 : 0 ≤ c) (hc1 : c ≤ 1) (hd0 : 0 ≤ d) (hd1 : d ≤ 1) :
    0 ≤ specBezier a b c d t ∧ specBezier a b c d t ≤ 1 := by
  have hs : 0 ≤ 1 - t := by linarith
  have w1 : 0 ≤ (1 - t) ^ 3 := pow_nonneg hs 3
  have w2 : 0 ≤ 3 * (1 - t) ^ 2 * t :=
    mul_nonneg (mul_nonneg (by norm_num) (pow_nonneg hs 2)) ht0
  have w3 : 0 ≤ 3 * (1 - t) * t ^ 2 :=
    mul_nonneg (mul_nonneg (by norm_num) hs) (pow_nonneg ht0 2)
  have w4 : 0 ≤ t ^ 3 := pow_nonneg ht0 3
  have hsum : (1 - t) ^ 3 + 3 * (1 - t) ^ 2 * t + 3 * (1 - t) * t ^ 2 + t ^ 3 = 1 := by
    ring
  unfold specBezier
  constructor
  · have := mul_nonneg w1 ha0
    have := mul_nonneg w2 hb0
    have := mul_nonneg w3 hc0
    have := mul_nonneg w4 hd0
    linarith
  · have := mul_nonneg w1 (sub_nonneg.mpr ha1)
    have := mul_nonneg w2 (sub_nonneg.mpr hb1)
    have := mul_nonneg w3 (sub_nonneg.mpr hc1)
    have := mul_nonneg w4 (sub_nonneg.mpr hd1)
    nlinarith

/-- The sampled parameter `i / (n - 1)` lies in `[0, 1]` for `0 <= i < n`, `n >= 2`. -/
theorem sample_parameter_mem_unit (n : Int) (i : Nat) (hn : 2 ≤ n) (hi : (i : Int) < n) :
    0 ≤ (i : ℚ) / ((n : ℚ) - 1) ∧ (i : ℚ) / ((n : ℚ) - 1) ≤ 1 := by
  have hpos : (0 : ℚ) < (n : ℚ) - 1 := by
    have : (2 : ℚ) ≤ (n : ℚ) := by exact_mod_cast hn
    linarith
  have hile : (i : ℚ) ≤ (n : ℚ) - 1 := by
    have h1 : (i : Int) ≤ n - 1 := by omega
    have : ((i : Int) : ℚ) ≤ ((n - 1 : Int) : ℚ) := by exact_mod_cast h1
    push_cast at this
    simpa using this
  constructor
  · exact div_nonneg (by positivity) hpos.le
  · rw [div_le_one hpos]; exact hile

/-! ### Helper lemmas: narrowing to `float` -/

theorem toFloat_one : toFloat 1 = some 1 := by
  unfold toFloat
  rw [if_neg (by norm_num)]
  have hlog : Int.log 2 (|(1 : ℚ)|) = 0 := by
    rw [abs_one]
    exact Int.log_one_right 2
  simp only [hlog]
  norm_num [roundHalfEven]

theorem toFloat_33554435 : toFloat 33554435 = some 33554436 := by
  unfold toFloat
  rw [if_neg (by norm_num)]
  have hpos : (0 : ℚ) < 33554435 := by norm_num
  have hlog : Int.log 2 (|(33554435 : ℚ)|) = 25 := by
    rw [abs_of_pos hpos]
    apply le_antisymm
    · have hlt : (33554435 : ℚ) < ((2 : ℕ) : ℚ) ^ (26 : ℤ) := by norm_num
      have h := (Int.lt_zpow_iff_log_lt (by norm_num : 1 < 2) hpos).1 hlt
      omega
    · exact (Int.zpow_le_iff_le_log (by norm_num : 1 < 2) hpos).1 (by norm_num)
  simp only [hlog]
  norm_num [roundHalfEven]

theorem toFloat_16777219 : toFloat 16777219 = some 16777220 := by
  unfold toFloat
  rw [if_neg (by norm_num)]
  have hpos : (0 : ℚ) < 16777219 := by norm_num
  have hlog : Int.log 2 (|(16777219 : ℚ)|) = 24 := by
    rw [abs_of_pos hpos]
    apply le_antisymm
    · have hlt : (16777219 : ℚ) < ((2 : ℕ) : ℚ) ^ (25 : ℤ) := by norm_num
      have h := (Int.lt_zpow_iff_log_lt (by norm_num : 1 < 2) hpos).1 hlt
      omega
    · exact (Int.zpow_le_iff_le_log (by norm_num : 1 < 2) hpos).1 (by norm_num)
  simp only [hlog]
  norm_num [roundHalfEven]

namespace BezierCurve

/-- The last vertex as the machine stores it: at `i = m_segmentCount - 1` the
parameter is 1, the curve point is `p4`, and both coordinates are narrowed. -/
theorem loopBodyWith_last (narrow : ℚ → Option ℚ) (self : BezierCurve) (i : Nat)
    (hi : (i : ℚ) = ((self.m_segmentCount - 1 : Int) : ℚ)) (hne : (i : ℚ) ≠ 0) :
    self.loopBodyWith narrow self.boundingRect i
      = match narrow (self.boundingRect.x + self.m_p4.x * self.boundingRect.width),
              narrow (self.boundingRect.y + self.m_p4.y * self.boundingRect.height) with
        | some x, some y => some ⟨x, y⟩
        | _, _ => none := by
  unfold loopBodyWith qrealDiv
  rw [← hi, if_neg hne, div_self hne]
  simp [QPointF.x, QPointF.y, QPointF.smul_def, QPointF.add_def]

end BezierCurve

/-! ### Claims on the Bezier curve item -/

/-- C5: `updatePaintNode` samples the cubic Bezier curve of the four control points
at `segmentCount` evenly spaced parameters from 0 to 1: for every segment count
`n >= 2` and every `0 <= i < n`, vertex `i` of the returned node is
`(bx + X*w, by + Y*h)` with `(X, Y)` the Bezier point at `t = i/(n-1)` and
`(bx, by, w, h)` the bounding rectangle; vertex 0 is the image of `p1` and vertex
`n-1` the image of `p4` (exact arithmetic). -/
theorem C5_updatePaintNode_samples_cubic_bezier (self : BezierCurve)
    (oldNode : Option QSGGeometryNode)
    (hold : ∀ n, oldNode = some n → n.geometry ≠ none)
    (hn : 2 ≤ self.m_segmentCount) :
    (∀ i : Nat, (i : Int) < self.m_segmentCount →
      self.paintedVertex oldNode i
        = some (self.specVertex ((i : ℚ) / ((self.m_segmentCount : ℚ) - 1)))) ∧
    self.paintedVertex oldNode 0
      = some ⟨self.boundingRect.x + self.m_p1.x * self.boundingRect.width,
              self.boundingRect.y + self.m_p1.y * self.boundingRect.height⟩ ∧
    self.paintedVertex oldNode (self.m_segmentCount - 1).toNat
      = some ⟨self.boundingRect.x + self.m_p4.x * self.boundingRect.width,
              self.boundingRect.y + self.m_p4.y * self.boundingRect.height⟩ := by
  have hall : ∀ i : Nat, (i : Int) < self.m_segmentCount →
      self.paintedVertex oldNode i
        = some (self.specVertex ((i : ℚ) / ((self.m_segmentCount : ℚ) - 1))) := by
    intro i hi
    rw [self.paintedVertex_eq_loopBody oldNode hold i hi,
      self.loopBody_eq_specVertex hn i]
  refine ⟨hall, ?_, ?_⟩
  · rw [hall 0 (by omega)]
    simp [BezierCurve.specVertex, specBezier]
  · have hlast : (((self.m_segmentCount - 1).toNat : Int)) = self.m_segmentCount - 1 :=
      Int.toNat_of_nonneg (by omega)
    rw [hall _ (by omega)]
    have hq : (((self.m_segmentCount - 1).toNat : Nat) : ℚ)
        = (self.m_segmentCount : ℚ) - 1 := by
      have := congrArg (fun z : Int => (z : ℚ)) hlast
      simpa using this
    have hne : (self.m_segmentCount : ℚ) - 1 ≠ 0 := by
      have : (2 : ℚ) ≤ (self.m_segmentCount : ℚ) := by exact_mod_cast hn
      intro h0; linarith
    rw [hq, div_self hne]
    simp [BezierCurve.specVertex, specBezier]

/-- Witness of C5 on the default control points with three segments on the
rectangle `(10, 20, 100, 50)`: vertex 0 is the corner image `(10, 20)` of `p1`,
vertex 1 is the curve point at `t = 1/2`, vertex 2 is the image `(110, 70)` of
`p4`. -/
theorem C5_updatePaintNode_samples_cubic_bezier_witness :
    (2 : Int) ≤ Sample.curve3.m_segmentCount ∧
    Sample.curve3.paintedVertex none 1 = some ⟨60, 45⟩ ∧
    Sample.curve3.paintedVertex none 0 = some ⟨10, 20⟩ ∧
    Sample.curve3.paintedVertex none 2 = some ⟨110, 70⟩ := by
  have h := C5_updatePaintNode_samples_cubic_bezier Sample.curve3 none
    (fun _ hn => Option.noConfusion hn) (by decide)
  refine ⟨by decide, ?_, ?_, ?_⟩
  · have h1 := h.1 1 (by decide)
    rw [h1]
    norm_num [Sample.curve3, BezierCurve.specVertex, specBezier, QPointF.x, QPointF.y,
      QRectF.x, QRectF.y, QRectF.width, QRectF.height]
  · rw [h.2.1]
    norm_num [Sample.curve3, QPointF.x, QPointF.y,
      QRectF.x, QRectF.y, QRectF.width, QRectF.height]
  · have h2 := h.2.2
    have hidx : (Sample.curve3.m_segmentCount - 1).toNat = 2 := by decide
    rw [hidx] at h2
    rw [h2]
    norm_num [Sample.curve3, QPointF.x, QPointF.y,
      QRectF.x, QRectF.y, QRectF.width, QRectF.height]

/-- C7: `updatePaintNode` reuses the retained node.  With an old node (holding a
geometry) it returns that node with its geometry re-allocated to `segmentCount`
vertices and with material, flags, line width and drawing mode untouched; without
an old node it returns a new node with `segmentCount` vertices, line width 2,
line-strip mode and a flat-colour material of colour `(255, 0, 0)`.  In both cases
the vertex count of the returned node is the current `segmentCount`. -/
theorem C7_updatePaintNode_reuses_node (self : BezierCurve) :
    (∀ (n : QSGGeometryNode) (g : QSGGeometry), n.geometry = some g →
      ∃ (node : QSGGeometryNode) (geometry : QSGGeometry),
        self.updatePaintNode (some n) = some node ∧
        node = { n with geometry := some geometry } ∧
        node.material = n.material ∧
        geometry.lineWidth = g.lineWidth ∧
        geometry.drawingMode = g.drawingMode ∧
        geometry.vertexCount = self.m_segmentCount ∧
        geometry.vertexData.length = self.m_segmentCount.toNat) ∧
    (∃ (node : QSGGeometryNode) (geometry : QSGGeometry),
        self.updatePaintNode none = some node ∧
        node.geometry = some geometry ∧
        geometry.vertexCount = self.m_segmentCount ∧
        geometry.vertexData.length = self.m_segmentCount.toNat ∧
        geometry.lineWidth = 2 ∧
        geometry.drawingMode = GL_LINE_STRIP ∧
        node.material = some { color := { r := 255, g := 0, b := 0 } } ∧
        node.ownsGeometry = true ∧ node.ownsMaterial = true) ∧
    (∀ (oldNode : Option QSGGeometryNode) (node : QSGGeometryNode),
      self.updatePaintNode oldNode = some node →
        ∃ geometry : QSGGeometry, node.geometry = some geometry ∧
          geometry.vertexCount = self.m_segmentCount) := by
  have hlen : (self.writeVertices self.boundingRect
        (List.replicate self.m_segmentCount.toNat .unwritten)).length
        = self.m_segmentCount.toNat := (self.writeVerticesWith_fresh some).1
  refine ⟨?_, ?_, ?_⟩
  · intro n g hg
    exact ⟨_, _, self.updatePaintNode_some n g hg, rfl, rfl, rfl, rfl, rfl, hlen⟩
  · exact ⟨_, _, self.updatePaintNode_none, rfl, rfl, hlen, rfl, rfl, rfl, rfl, rfl⟩
  · intro oldNode node h
    cases oldNode with
    | none =>
      rw [self.updatePaintNode_none, Option.some.injEq] at h
      subst h
      exact ⟨_, rfl, rfl⟩
    | some n =>
      cases hg : n.geometry with
      | none =>
        simp [BezierCurve.updatePaintNode, BezierCurve.updatePaintNodeWith, hg] at h
      | some g =>
        rw [self.updatePaintNode_some n g hg, Option.some.injEq] at h
        subst h
        exact ⟨_, rfl, rfl⟩

/-- Witness of C7: repainting the three-segment sample curve onto the used sample
node keeps its white material, line width 5 and triangle-strip mode, and gives it
three vertices. -/
theorem C7_updatePaintNode_reuses_node_witness :
    Sample.usedNode.geometry = some
      { vertexCount := 2, lineWidth := 5, drawingMode := GL_TRIANGLE_STRIP,
        vertexData := [.written (some ⟨7, 7⟩), .written (some ⟨8, 8⟩)] } ∧
    ∃ (node : QSGGeometryNode) (geometry : QSGGeometry),
      Sample.curve3.updatePaintNode (some Sample.usedNode) = some node ∧
      node = { Sample.usedNode with geometry := some geometry } ∧
      node.material = some {} ∧
      geometry.lineWidth = 5 ∧
      geometry.drawingMode = GL_TRIANGLE_STRIP ∧
      geometry.vertexCount = 3 ∧
      geometry.vertexData.length = 3 :=
  ⟨rfl, (C7_updatePaintNode_reuses_node Sample.curve3).1 Sample.usedNode _ rfl⟩

/-- C8: each `BezierCurve` setter is change-guarded.  If the argument equals the
current value the state is unchanged (no signal, no repaint request); otherwise the
field becomes the argument, the matching changed signal is emitted exactly once with
the argument, `update()` is requested exactly once after it, and the other four
fields (and the bounding rectangle) keep their values. -/
theorem C8_bezier_setters_change_guarded (self : BezierCurve) (p : QPointF)
    (count : Int) :
    ((p = self.m_p1 → self.setP1 p = self) ∧
     (p ≠ self.m_p1 →
        (self.setP1 p).m_p1 = p ∧
        (self.setP1 p).events = self.events ++ [.p1Changed p, .update] ∧
        (self.setP1 p).m_p2 = self.m_p2 ∧ (self.setP1 p).m_p3 = self.m_p3 ∧
        (self.setP1 p).m_p4 = self.m_p4 ∧
        (self.setP1 p).m_segmentCount = self.m_segmentCount ∧
        (self.setP1 p).boundingRect = self.boundingRect)) ∧
    ((p = self.m_p2 → self.setP2 p = self) ∧
     (p ≠ self.m_p2 →
        (self.setP2 p).m_p2 = p ∧
        (self.setP2 p).events = self.events ++ [.p2Changed p, .update] ∧
        (self.setP2 p).m_p1 = self.m_p1 ∧ (self.setP2 p).m_p3 = self.m_p3 ∧
        (self.setP2 p).m_p4 = self.m_p4 ∧
        (self.setP2 p).m_segmentCount = self.m_segmentCount ∧
        (self.setP2 p).boundingRect = self.boundingRect)) ∧
    ((p = self.m_p3 → self.setP3 p = self) ∧
     (p ≠ self.m_p3 →
        (self.setP3 p).m_p3 = p ∧
        (self.setP3 p).events = self.events ++ [.p3Changed p, .update] ∧
        (self.setP3 p).m_p1 = self.m_p1 ∧ (self.setP3 p).m_p2 = self.m_p2 ∧
        (self.setP3 p).m_p4 = self.m_p4 ∧
        (self.setP3 p).m_segmentCount = self.m_segmentCount ∧
        (self.setP3 p).boundingRect = self.boundingRect)) ∧
    ((p = self.m_p4 → self.setP4 p = self) ∧
     (p ≠ self.m_p4 →
        (self.setP4 p).m_p4 = p ∧
        (self.setP4 p).events = self.events ++ [.p4Changed p, .update] ∧
        (self.setP4 p).m_p1 = self.m_p1 ∧ (self.setP4 p).m_p2 = self.m_p2 ∧
        (self.setP4 p).m_p3 = self.m_p3 ∧
        (self.setP4 p).m_segmentCount = self.m_segmentCount ∧
        (self.setP4 p).boundingRect = self.boundingRect)) ∧
    ((count = self.m_segmentCount → self.setSegmentCount count = self) ∧
     (count ≠ self.m_segmentCount →
        (self.setSegmentCount count).m_segmentCount = count ∧
        (self.setSegmentCount count).events
          = self.events ++ [.segmentCountChanged count, .update] ∧
        (self.setSegmentCount count).m_p1 = self.m_p1 ∧
        (self.setSegmentCount count).m_p2 = self.m_p2 ∧
        (self.setSegmentCount count).m_p3 = self.m_p3 ∧
        (self.setSegmentCount count).m_p4 = self.m_p4 ∧
        (self.setSegmentCount count).boundingRect = self.boundingRect)) := by
  refine ⟨⟨?_, ?_⟩, ⟨?_, ?_⟩, ⟨?_, ?_⟩, ⟨?_, ?_⟩, ⟨?_, ?_⟩⟩
  · intro h; simp [BezierCurve.setP1, h]
  · intro h; simp [BezierCurve.setP1, h]
  · intro h; simp [BezierCurve.setP2, h]
  · intro h; simp [BezierCurve.setP2, h]
  · intro h; simp [BezierCurve.setP3, h]
  · intro h; simp [BezierCurve.setP3, h]
  · intro h; simp [BezierCurve.setP4, h]
  · intro h; simp [BezierCurve.setP4, h]
  · intro h; simp [BezierCurve.setSegmentCount, h]
  · intro h; simp [BezierCurve.setSegmentCount, Ne.symm h]

/-- Witness of C8 on the sample curve: `setP1` with its current `p1 = (0, 0)` changes
nothing, and `setSegmentCount(8)` from 3 stores 8 and logs one
`segmentCountChanged(8)` followed by one `update()`. -/
theorem C8_bezier_setters_change_guarded_witness :
    Sample.curve3.setP1 ⟨0, 0⟩ = Sample.curve3 ∧
    (Sample.curve3.setSegmentCount 8).m_segmentCount = 8 ∧
    (Sample.curve3.setSegmentCount 8).events = [.segmentCountChanged 8, .update] :=
  ⟨(C8_bezier_setters_change_guarded Sample.curve3 ⟨0, 0⟩ 8).1.1 rfl,
   ((C8_bezier_setters_change_guarded Sample.curve3 ⟨0, 0⟩ 8).2.2.2.2.2
      (by decide)).1,
   ((C8_bezier_setters_change_guarded Sample.curve3 ⟨0, 0⟩ 8).2.2.2.2.2
      (by decide)).2.1⟩

/-! ### Claims on the target direction and the system palette -/

/-- A value that is no NaN does not compare unequal to itself. -/
theorem Qreal.ne_self_of_ne_nan (a : Qreal) (h : a ≠ .nan) : Qreal.ne a a = false := by
  cases a with
  | nan => exact absurd rfl h
  | posInf => rfl
  | negInf => rfl
  | finite q => simp [Qreal.ne]

/-- Two values that do not compare unequal are the same value. -/
theorem Qreal.eq_of_ne_false (a b : Qreal) (h : Qreal.ne a b = false) : a = b := by
  cases a <;> cases b <;> simp_all [Qreal.ne]

/-- C9 as stated fails in its last clause: calling a setter twice in a row with the
same argument can emit two signals.  A NaN compares unequal to every value, itself
included, so `setTargetX(NaN)` called twice on the sample direction emits
`targetXChanged(NaN)` twice. -/
theorem C9_target_direction_setters_nan_counterexample :
    ((Sample.direction.setTargetX .nan).setTargetX .nan).emitted
      = [.targetXChanged .nan, .targetXChanged .nan] ∧
    ¬ (∀ (self : QQuickTargetDirection) (x : Qreal),
        ∃ l : List TargetDirectionSignal,
          ((self.setTargetX x).setTargetX x).emitted = self.emitted ++ l ∧
          l.length ≤ 1) := by
  have hev : ((Sample.direction.setTargetX .nan).setTargetX .nan).emitted
      = [.targetXChanged .nan, .targetXChanged .nan] := by decide
  refine ⟨hev, ?_⟩
  intro hall
  obtain ⟨l, hl, hlen⟩ := hall Sample.direction .nan
  rw [hev] at hl
  have hl2 : l = [.targetXChanged .nan, .targetXChanged .nan] := by
    simpa [Sample.direction] using hl.symm
  rw [hl2] at hlen
  simp at hlen

/-- C9 amended: each of the seven `QQuickTargetDirection` setters is consistent with
its getter.  After the call the getter returns the argument; the matching changed
signal is emitted exactly once, with the argument, if and only if the argument
compares unequal (`!=`) to the previous value (otherwise nothing is emitted); the
other six fields are unchanged; and a second call with the same argument emits
nothing, so two calls in a row emit at most one signal, provided the argument of a
`qreal` setter is not a NaN (a NaN compares unequal to itself). -/
theorem C9_target_direction_setters_consistent (self : QQuickTargetDirection)
    (x : Qreal) (b : Bool) (item : QQuickItemPtr) :
     ((self.setTargetX x).targetX = x ∧
      (self.setTargetX x).emitted
        = self.emitted ++ (if Qreal.ne self.targetX x then [.targetXChanged x] else []) ∧
      (self.setTargetX x).targetY = self.targetY ∧
      (self.setTargetX x).targetVariation = self.targetVariation ∧
      (self.setTargetX x).magnitude = self.magnitude ∧
      (self.setTargetX x).proportionalMagnitude = self.proportionalMagnitude ∧
      (self.setTargetX x).magnitudeVariation = self.magnitudeVariation ∧
      (self.setTargetX x).targetItem = self.targetItem ∧
      (x ≠ .nan →
        ((self.setTargetX x).setTargetX x).emitted = (self.setTargetX x).emitted)) ∧
     ((self.setTargetY x).targetY = x ∧
      (self.setTargetY x).emitted
        = self.emitted ++ (if Qreal.ne self.targetY x then [.targetYChanged x] else []) ∧
      (self.setTargetY x).targetX = self.targetX ∧
      (self.setTargetY x).targetVariation = self.targetVariation ∧
      (self.setTargetY x).magnitude = self.magnitude ∧
      (self.setTargetY x).proportionalMagnitude = self.proportionalMagnitude ∧
      (self.setTargetY x).magnitudeVariation = self.magnitudeVariation ∧
      (self.setTargetY x).targetItem = self.targetItem ∧
      (x ≠ .nan →
        ((self.setTargetY x).setTargetY x).emitted = (self.setTargetY x).emitted)) ∧
     ((self.setTargetVariation x).targetVariation = x ∧
      (self.setTargetVariation x).emitted
        = self.emitted ++ (if Qreal.ne self.targetVariation x then [.targetVariationChanged x] else []) ∧
      (self.setTargetVariation x).targetX = self.targetX ∧
      (self.setTargetVariation x).targetY = self.targetY ∧
      (self.setTargetVariation x).magnitude = self.magnitude ∧
      (self.setTargetVariation x).proportionalMagnitude = self.proportionalMagnitude ∧
      (self.setTargetVariation x).magnitudeVariation = self.magnitudeVariation ∧
      (self.setTargetVariation x).targetItem = self.targetItem ∧
      (x ≠ .nan →
        ((self.setTargetVariation x).setTargetVariation x).emitted = (self.setTargetVariation x).emitted)) ∧
     ((self.setMagnitude x).magnitude = x ∧
      (self.setMagnitude x).emitted
        = self.emitted ++ (if Qreal.ne self.magnitude x then [.magnitudeChanged x] else []) ∧
      (self.setMagnitude x).targetX = self.targetX ∧
      (self.setMagnitude x).targetY = self.targetY ∧
      (self.setMagnitude x).targetVariation = self.targetVariation ∧
      (self.setMagnitude x).proportionalMagnitude = self.proportionalMagnitude ∧
      (self.setMagnitude x).magnitudeVariation = self.magnitudeVariation ∧
      (self.setMagnitude x).targetItem = self.targetItem ∧
      (x ≠ .nan →
        ((self.setMagnitude x).setMagnitude x).emitted = (self.setMagnitude x).emitted)) ∧
     ((self.setProportionalMagnitude b).proportionalMagnitude = b ∧
      (self.setProportionalMagnitude b).emitted
        = self.emitted ++ (if b ≠ self.proportionalMagnitude then [.proprotionalMagnitudeChanged b] else []) ∧
      (self.setProportionalMagnitude b).targetX = self.targetX ∧
      (self.setProportionalMagnitude b).targetY = self.targetY ∧
      (self.setProportionalMagnitude b).targetVariation = self.targetVariation ∧
      (self.setProportionalMagnitude b).magnitude = self.magnitude ∧
      (self.setProportionalMagnitude b).magnitudeVariation = self.magnitudeVariation ∧
      (self.setProportionalMagnitude b).targetItem = self.targetItem ∧
      ((self.setProportionalMagnitude b).setProportionalMagnitude b).emitted = (self.setProportionalMagnitude b).emitted) ∧
     ((self.setMagnitudeVariation x).magnitudeVariation = x ∧
      (self.setMagnitudeVariation x).emitted
        = self.emitted ++ (if Qreal.ne self.magnitudeVariation x then [.magnitudeVariationChanged x] else []) ∧
      (self.setMagnitudeVariation x).targetX = self.targetX ∧
      (self.setMagnitudeVariation x).targetY = self.targetY ∧
      (self.setMagnitudeVariation x).targetVariation = self.targetVariation ∧
      (self.setMagnitudeVariation x).magnitude = self.magnitude ∧
      (self.setMagnitudeVariation x).proportionalMagnitude = self.proportionalMagnitude ∧
      (self.setMagnitudeVariation x).targetItem = self.targetItem ∧
      (x ≠ .nan →
        ((self.setMagnitudeVariation x).setMagnitudeVariation x).emitted = (self.setMagnitudeVariation x).emitted)) ∧
     ((self.setTargetItem item).targetItem = item ∧
      (self.setTargetItem item).emitted
        = self.emitted ++ (if item ≠ self.targetItem then [.targetItemChanged item] else []) ∧
      (self.setTargetItem item).targetX = self.targetX ∧
      (self.setTargetItem item).targetY = self.targetY ∧
      (self.setTargetItem item).targetVariation = self.targetVariation ∧
      (self.setTargetItem item).magnitude = self.magnitude ∧
      (self.setTargetItem item).proportionalMagnitude = self.proportionalMagnitude ∧
      (self.setTargetItem item).magnitudeVariation = self.magnitudeVariation ∧
      ((self.setTargetItem item).setTargetItem item).emitted = (self.setTargetItem item).emitted) := by
  refine ⟨?_, ?_, ?_, ?_, ?_, ?_, ?_⟩
  · cases hne : Qreal.ne self.m_targetX x with
    | true =>
      have hset : self.setTargetX x
          = { self with m_targetX := x,
                        emitted := self.emitted ++ [.targetXChanged x] } := by
        simp [QQuickTargetDirection.setTargetX, hne]
      rw [hset]
      refine ⟨rfl, ?_, rfl, rfl, rfl, rfl, rfl, rfl, ?_⟩
      · simp [QQuickTargetDirection.targetX, hne]
      · intro hx
        simp [QQuickTargetDirection.setTargetX, Qreal.ne_self_of_ne_nan x hx]
    | false =>
      have heq : self.m_targetX = x := Qreal.eq_of_ne_false _ _ hne
      have hset : self.setTargetX x = self := by
        simp [QQuickTargetDirection.setTargetX, hne]
      rw [hset]
      refine ⟨heq, ?_, rfl, rfl, rfl, rfl, rfl, rfl, ?_⟩
      · simp [QQuickTargetDirection.targetX, hne]
      · intro _
        rw [hset]
  · cases hne : Qreal.ne self.m_targetY x with
    | true =>
      have hset : self.setTargetY x
          = { self with m_targetY := x,
                        emitted := self.emitted ++ [.targetYChanged x] } := by
        simp [QQuickTargetDirection.setTargetY, hne]
      rw [hset]
      refine ⟨rfl, ?_, rfl, rfl, rfl, rfl, rfl, rfl, ?_⟩
      · simp [QQuickTargetDirection.targetY, hne]
      · intro hx
        simp [QQuickTargetDirection.setTargetY, Qreal.ne_self_of_ne_nan x hx]
    | false =>
      have heq : self.m_targetY = x := Qreal.eq_of_ne_false _ _ hne
      have hset : self.setTargetY x = self := by
        simp [QQuickTargetDirection.setTargetY, hne]
      rw [hset]
      refine ⟨heq, ?_, rfl, rfl, rfl, rfl, rfl, rfl, ?_⟩
      · simp [QQuickTargetDirection.targetY, hne]
      · intro _
        rw [hset]
  · cases hne : Qreal.ne self.m_targetVariation x with
    | true =>
      have hset : self.setTargetVariation x
          = { self with m_targetVariation := x,
                        emitted := self.emitted ++ [.targetVariationChanged x] } := by
        simp [QQuickTargetDirection.setTargetVariation, hne]
      rw [hset]
      refine ⟨rfl, ?_, rfl, rfl, rfl, rfl, rfl, rfl, ?_⟩
      · simp [QQuickTargetDirection.targetVariation, hne]
      · intro hx
        simp [QQuickTargetDirection.setTargetVariation, Qreal.ne_self_of_ne_nan x hx]
    | false =>
      have heq : self.m_targetVariation = x := Qreal.eq_of_ne_false _ _ hne
      have hset : self.setTargetVariation x = self := by
        simp [QQuickTargetDirection.setTargetVariation, hne]
      rw [hset]
      refine ⟨heq, ?_, rfl, rfl, rfl, rfl, rfl, rfl, ?_⟩
      · simp [QQuickTargetDirection.targetVariation, hne]
      · intro _
        rw [hset]
  · cases hne : Qreal.ne self.m_magnitude x with
    | true =>
      have hset : self.setMagnitude x
          = { self with m_magnitude := x,
                        emitted := self.emitted ++ [.magnitudeChanged x] } := by
        simp [QQuickTargetDirection.setMagnitude, hne]
      rw [hset]
      refine ⟨rfl, ?_, rfl, rfl, rfl, rfl, rfl, rfl, ?_⟩
      · simp [QQuickTargetDirection.magnitude, hne]
      · intro hx
        simp [QQuickTargetDirection.setMagnitude, Qreal.ne_self_of_ne_nan x hx]
    | false =>
      have heq : self.m_magnitude = x := Qreal.eq_of_ne_false _ _ hne
      have hset : self.setMagnitude x = self := by
        simp [QQuickTargetDirection.setMagnitude, hne]
      rw [hset]
      refine ⟨heq, ?_, rfl, rfl, rfl, rfl, rfl, rfl, ?_⟩
      · simp [QQuickTargetDirection.magnitude, hne]
      · intro _
        rw [hset]
  · by_cases h : self.m_proportionalMagnitude = b
    · subst h
      simp [QQuickTargetDirection.setProportionalMagnitude, QQuickTargetDirection.targetX, QQuickTargetDirection.targetY, QQuickTargetDirection.targetVariation, QQuickTargetDirection.magnitude, QQuickTargetDirection.proportionalMagnitude, QQuickTargetDirection.magnitudeVariation, QQuickTargetDirection.targetItem]
    · have h2 : ¬ b = self.m_proportionalMagnitude := fun e => h e.symm
      simp [QQuickTargetDirection.setProportionalMagnitude, QQuickTargetDirection.targetX, QQuickTargetDirection.targetY, QQuickTargetDirection.targetVariation, QQuickTargetDirection.magnitude, QQuickTargetDirection.proportionalMagnitude, QQuickTargetDirection.magnitudeVariation, QQuickTargetDirection.targetItem, h, h2]
  · cases hne : Qreal.ne self.m_magnitudeVariation x with
    | true =>
      have hset : self.setMagnitudeVariation x
          = { self with m_magnitudeVariation := x,
                        emitted := self.emitted ++ [.magnitudeVariationChanged x] } := by
        simp [QQuickTargetDirection.setMagnitudeVariation, hne]
      rw [hset]
      refine ⟨rfl, ?_, rfl, rfl, rfl, rfl, rfl, rfl, ?_⟩
      · simp [QQuickTargetDirection.magnitudeVariation, hne]
      · intro hx
        simp [QQuickTargetDirection.setMagnitudeVariation, Qreal.ne_self_of_ne_nan x hx]
    | false =>
      have heq : self.m_magnitudeVariation = x := Qreal.eq_of_ne_false _ _ hne
      have hset : self.setMagnitudeVariation x = self := by
        simp [QQuickTargetDirection.setMagnitudeVariation, hne]
      rw [hset]
      refine ⟨heq, ?_, rfl, rfl, rfl, rfl, rfl, rfl, ?_⟩
      · simp [QQuickTargetDirection.magnitudeVariation, hne]
      · intro _
        rw [hset]
  · by_cases h : self.m_targetItem = item
    · subst h
      simp [QQuickTargetDirection.setTargetItem, QQuickTargetDirection.targetX, QQuickTargetDirection.targetY, QQuickTargetDirection.targetVariation, QQuickTargetDirection.magnitude, QQuickTargetDirection.proportionalMagnitude, QQuickTargetDirection.magnitudeVariation, QQuickTargetDirection.targetItem]
    · have h2 : ¬ item = self.m_targetItem := fun e => h e.symm
      simp [QQuickTargetDirection.setTargetItem, QQuickTargetDirection.targetX, QQuickTargetDirection.targetY, QQuickTargetDirection.targetVariation, QQuickTargetDirection.magnitude, QQuickTargetDirection.proportionalMagnitude, QQuickTargetDirection.magnitudeVariation, QQuickTargetDirection.targetItem, h, h2]

/-- Witness of C9 on the sample direction: `setTargetX(5)` stores 5 and emits
`targetXChanged(5)` once, and a second `setTargetX(5)` emits nothing more. -/
theorem C9_target_direction_setters_consistent_witness :
    (Qreal.finite 5) ≠ .nan ∧
    (Sample.direction.setTargetX (.finite 5)).targetX = .finite 5 ∧
    ((Sample.direction.setTargetX (.finite 5)).setTargetX (.finite 5)).emitted
      = (Sample.direction.setTargetX (.finite 5)).emitted :=
  ⟨by decide,
   (C9_target_direction_setters_consistent Sample.direction (.finite 5) false none).1.1,
   (C9_target_direction_setters_consistent Sample.direction (.finite 5) false
      none).1.2.2.2.2.2.2.2.2 (by decide)⟩

/-- C10: for each of the three colour groups and each of the fourteen colour roles,
the value a `SystemPalette` object with that colour group exposes is the colour of
that role in the host application palette for that group (a fresh object has
group `Active`); after the application palette is changed the exposed values are
the colours of the new palette, as in the `paletteChanged` test where `text`,
`buttonText` and `windowText` follow the three colours set in the new palette. -/
theorem C10_system_palette_exposes_host_colours (application changed : QPalette)
    (group : ColorGroup) (role : ColorRole) (c1 c2 c3 : QColor) :
    (QQuickSystemPalette.create application).exposed role
      = application.color .Active role ∧
    ((QQuickSystemPalette.create application).setColorGroup group).colorGroup
      = group ∧
    ((QQuickSystemPalette.create application).setColorGroup group).exposed role
      = application.color group role ∧
    (((QQuickSystemPalette.create application).setColorGroup group).applicationPaletteChange
        changed).exposed role
      = changed.color group role ∧
    ((((QQuickSystemPalette.create application).applicationPaletteChange
        (((application.setColor .Active .Text c1).setColor .Active .ButtonText
          c2).setColor .Active .WindowText c3)).setColorGroup .Active).text = c1 ∧
     (((QQuickSystemPalette.create application).applicationPaletteChange
        (((application.setColor .Active .Text c1).setColor .Active .ButtonText
          c2).setColor .Active .WindowText c3)).setColorGroup .Active).buttonText = c2 ∧
     (((QQuickSystemPalette.create application).applicationPaletteChange
        (((application.setColor .Active .Text c1).setColor .Active .ButtonText
          c2).setColor .Active .WindowText c3)).setColorGroup .Active).windowText
        = c3) := by
  refine ⟨?_, rfl, ?_, ?_, ?_, ?_, ?_⟩
  · cases role <;> rfl
  · cases role <;> rfl
  · cases role <;> rfl
  · simp [QQuickSystemPalette.text, QQuickSystemPalette.setColorGroup,
      QQuickSystemPalette.applicationPaletteChange, QQuickSystemPalette.create,
      QPalette.setColor]
  · simp [QQuickSystemPalette.buttonText, QQuickSystemPalette.setColorGroup,
      QQuickSystemPalette.applicationPaletteChange, QQuickSystemPalette.create,
      QPalette.setColor]
  · simp [QQuickSystemPalette.windowText, QQuickSystemPalette.setColorGroup,
      QQuickSystemPalette.applicationPaletteChange, QQuickSystemPalette.create,
      QPalette.setColor]

/-! ### Further claims on the error accumulator and the node conversion -/

/-- C11: `error(description)` is usable only while an object is under compilation.
It succeeds, appending its error, if and only if the object pointer of the parser
is set, and trips its assertion (no result) otherwise; `error(prop, description)`
and `error(node, description)` never consult the object under compilation: they
append their error whether or not it is set, the appended list does not depend on
the object pointer, and they leave the pointer as it is. -/
theorem C11_error_requires_object_under_compilation (self : QDeclarativeCustomParser)
    (d : String) :
    ((self.error d).isSome ↔ self.object.isSome) ∧
    (self.object = none → self.error d = none) ∧
    (∀ o : Object, self.object = some o →
      ∃ next : QDeclarativeCustomParser, self.error d = some next ∧
        next.exceptions = self.exceptions ++
          [{ description := d, line := o.location.start.line,
             column := o.location.start.column }]) ∧
    (∀ (prop : QDeclarativeCustomParserProperty) (other : Option Object),
      (self.errorProperty prop d).exceptions = self.exceptions ++
          [{ description := d, line := prop.location.line,
             column := prop.location.column }] ∧
      ({ self with object := other }.errorProperty prop d).exceptions
        = (self.errorProperty prop d).exceptions ∧
      (self.errorProperty prop d).object = self.object) ∧
    (∀ (node : QDeclarativeCustomParserNode) (other : Option Object),
      (self.errorNode node d).exceptions = self.exceptions ++
          [{ description := d, line := node.location.line,
             column := node.location.column }] ∧
      ({ self with object := other }.errorNode node d).exceptions
        = (self.errorNode node d).exceptions ∧
      (self.errorNode node d).object = self.object) := by
  refine ⟨?_, ?_, ?_, ?_, ?_⟩
  · cases ho : self.object with
    | none => simp [QDeclarativeCustomParser.error, ho]
    | some o => simp [QDeclarativeCustomParser.error_of_object self o d ho]
  · intro ho
    simp [QDeclarativeCustomParser.error, ho]
  · intro o ho
    exact ⟨_, QDeclarativeCustomParser.error_of_object self o d ho, rfl⟩
  · intro prop other
    exact ⟨rfl, rfl, rfl⟩
  · intro node other
    exact ⟨rfl, rfl, rfl⟩

/-- Witness of C11: on the sample parser without object, `error("bad")` trips the
assertion, while on the sample parser compiling `Root` (line 1, column 1) it
appends `("bad", 1, 1)`. -/
theorem C11_error_requires_object_under_compilation_witness :
    Sample.idleParser.object = none ∧
    Sample.idleParser.error "bad" = none ∧
    Sample.parser.object = some Sample.root ∧
    ∃ next : QDeclarativeCustomParser, Sample.parser.error "bad" = some next ∧
      next.exceptions = [{ description := "old", line := 9, column := 9 },
                         { description := "bad", line := 1, column := 1 }] :=
  ⟨rfl,
   (C11_error_requires_object_under_compilation Sample.idleParser "bad").2.1 rfl,
   rfl,
   (C11_error_requires_object_under_compilation Sample.parser "bad").2.2.1
      Sample.root rfl⟩

/-- C12: for every parsed property `p` whose nested object value `p->value` is set,
the `assignedValues` of `fromProperty(p)` are exactly the properties of
`fromObject(p->value)`, each wrapped as a property variant, in the same order.  The
nested object is flattened: every entry is a property variant (no node variant at
this level), the result does not depend on the type name or the location of the
nested object, and the entries of `p->values` are not converted: they do not
influence the assigned values and stay as they were in the parsed tree. -/
theorem C12_fromProperty_flattens_nested_object (p : Property) (o : Object)
    (h : p.value = some o) :
    (QDeclarativeCustomParserNodePrivate.fromProperty p).1.assignedValues
      = (QDeclarativeCustomParserNodePrivate.fromObject o).1.properties.map
          QVariant.property ∧
    (QDeclarativeCustomParserNodePrivate.fromProperty p).1.assignedValues.length
      = o.properties.length + (if o.defaultProperty.isSome then 1 else 0) ∧
    (∀ v ∈ (QDeclarativeCustomParserNodePrivate.fromProperty p).1.assignedValues,
      ∃ q : QDeclarativeCustomParserProperty, v = QVariant.property q) ∧
    (∀ (typeName : String) (location : LocationSpan),
      (QDeclarativeCustomParserNodePrivate.fromProperty
        (.mk p.name p.location p.values
          (some (.mk typeName location o.properties o.defaultProperty)))).1
        = (QDeclarativeCustomParserNodePrivate.fromProperty p).1) ∧
    (∀ values : List Value,
      (QDeclarativeCustomParserNodePrivate.fromProperty
        (.mk p.name p.location values (some o))).1.assignedValues
        = (QDeclarativeCustomParserNodePrivate.fromProperty p).1.assignedValues) ∧
    (QDeclarativeCustomParserNodePrivate.fromProperty p).2.values = p.values := by
  obtain ⟨name, location, values, value⟩ := p
  simp only [Property.value] at h
  subst h
  obtain ⟨typeName, oloc, properties, defaultProperty⟩ := o
  refine ⟨?_, ?_, ?_, ?_, ?_, ?_⟩
  · simp [QDeclarativeCustomParserNodePrivate.fromProperty,
      QDeclarativeCustomParserProperty.assignedValues]
  · cases defaultProperty <;>
      simp [QDeclarativeCustomParserNodePrivate.fromProperty,
        QDeclarativeCustomParserNodePrivate.fromObject,
        QDeclarativeCustomParserNodePrivate.fromProperties_fst,
        QDeclarativeCustomParserProperty.assignedValues,
        QDeclarativeCustomParserNode.properties, Object.properties,
        Object.defaultProperty]
  · intro v hv
    simp only [QDeclarativeCustomParserNodePrivate.fromProperty,
      QDeclarativeCustomParserProperty.assignedValues, List.mem_map] at hv
    obtain ⟨q, -, hq⟩ := hv
    exact ⟨q, hq.symm⟩
  · intro typeName2 location2
    cases defaultProperty <;>
      simp [QDeclarativeCustomParserNodePrivate.fromProperty,
        QDeclarativeCustomParserNodePrivate.fromObject,
        QDeclarativeCustomParserNode.properties, Object.properties,
        Object.defaultProperty, Property.name, Property.location, Property.values]
  · intro values2
    simp [QDeclarativeCustomParserNodePrivate.fromProperty,
      QDeclarativeCustomParserProperty.assignedValues, Property.name,
      Property.location]
  · simp [QDeclarativeCustomParserNodePrivate.fromProperty, Property.values]

/-- Witness of C12 on the sample property `anchors`, whose nested object is `Root`
(one property `items` and the default property `title`): the assigned values are
the two converted properties of `Root` as property variants; neither `Root` nor
the literal `1` of the value list appears. -/
theorem C12_fromProperty_flattens_nested_object_witness :
    Sample.anchors.value = some Sample.root ∧
    (QDeclarativeCustomParserNodePrivate.fromProperty Sample.anchors).1.assignedValues
      = [QVariant.property (.mk "items" true ⟨2, 3⟩
           [QVariant.variant (.Number 7), QVariant.node (.mk "Leaf" [] ⟨3, 5⟩)]),
         QVariant.property (.mk "title" false ⟨5, 3⟩
           [QVariant.variant (.String "hello")])] ∧
    (QDeclarativeCustomParserNodePrivate.fromProperty Sample.anchors).2.values
      = [.mk .Unknown (.Number 1) none] :=
  ⟨rfl,
   (C12_fromProperty_flattens_nested_object Sample.anchors Sample.root rfl).1,
   (C12_fromProperty_flattens_nested_object Sample.anchors Sample.root rfl).2.2.2.2.2⟩

/-! ### Helper lemmas: divisor of the loop body -/

/-- A list of length one is determined by its first element. -/
theorem list_eq_singleton {α : Type} (l : List α) (a : α) (hlen : l.length = 1)
    (h0 : l[0]? = some a) : l = [a] := by
  match l, hlen, h0 with
  | [x], _, h0 =>
    simp only [List.getElem?_cons_zero, Option.some.injEq] at h0
    rw [h0]

namespace BezierCurve

/-- The loop body divides by `divisor`. -/
theorem loopBody_none_iff (self : BezierCurve) (bounds : QRectF) (i : Nat) :
    self.loopBody bounds i = none ↔ self.divisor = 0 := by
  unfold loopBody loopBodyWith qrealDiv divisor
  by_cases h : ((self.m_segmentCount - 1 : Int) : ℚ) = 0
  · rw [if_pos h]
    exact ⟨fun _ => h, fun _ => rfl⟩
  · rw [if_neg h]
    exact ⟨fun hn => Option.noConfusion hn, fun h0 => absurd h0 h⟩

/-- With a zero divisor the loop body yields no vertex, whatever the narrowing. -/
theorem loopBodyWith_of_divisor_zero (narrow : ℚ → Option ℚ) (self : BezierCurve)
    (bounds : QRectF) (i : Nat) (h : self.divisor = 0) :
    self.loopBodyWith narrow bounds i = none := by
  unfold divisor at h
  unfold loopBodyWith qrealDiv
  rw [if_pos h]

theorem divisor_eq_zero_iff (self : BezierCurve) :
    self.divisor = 0 ↔ self.m_segmentCount = 1 := by
  unfold divisor
  constructor
  · intro h
    have h0 : self.m_segmentCount - 1 = 0 := by exact_mod_cast h
    omega
  · intro h
    simp [h]

/-- A Bezier point at a parameter of `[0, 1]` with control points in the unit
square, scaled into a rectangle of non-negative size, lies in that rectangle. -/
theorem specVertex_within (self : BezierCurve) (t : ℚ) (ht0 : 0 ≤ t) (ht1 : t ≤ 1)
    (h1 : self.m_p1.inUnitSquare) (h2 : self.m_p2.inUnitSquare)
    (h3 : self.m_p3.inUnitSquare) (h4 : self.m_p4.inUnitSquare)
    (hw : 0 ≤ self.boundingRect.width) (hh : 0 ≤ self.boundingRect.height) :
    (self.specVertex t).within self.boundingRect := by
  obtain ⟨hx0, hx1⟩ := specBezier_mem_unit self.m_p1.x self.m_p2.x self.m_p3.x
    self.m_p4.x t ht0 ht1 h1.1 h1.2.1 h2.1 h2.2.1 h3.1 h3.2.1 h4.1 h4.2.1
  obtain ⟨hy0, hy1⟩ := specBezier_mem_unit self.m_p1.y self.m_p2.y self.m_p3.y
    self.m_p4.y t ht0 ht1 h1.2.2.1 h1.2.2.2 h2.2.2.1 h2.2.2.2 h3.2.2.1 h3.2.2.2
    h4.2.2.1 h4.2.2.2
  simp only [Point2D.within, specVertex]
  refine ⟨?_, ?_, ?_, ?_⟩
  · have := mul_nonneg hx0 hw
    linarith
  · have := mul_le_mul_of_nonneg_right hx1 hw
    linarith
  · have := mul_nonneg hy0 hh
    linarith
  · have := mul_le_mul_of_nonneg_right hy1 hh
    linarith

end BezierCurve

/-- The Bernstein weights at a parameter of `[0, 1]` are non-negative and sum to 1. -/
theorem bernsteinWeights_nonneg_sum (t : ℚ) (ht0 : 0 ≤ t) (ht1 : t ≤ 1) :
    0 ≤ (bernsteinWeights t).1 ∧ 0 ≤ (bernsteinWeights t).2.1 ∧
    0 ≤ (bernsteinWeights t).2.2.1 ∧ 0 ≤ (bernsteinWeights t).2.2.2 ∧
    (bernsteinWeights t).1 + (bernsteinWeights t).2.1 + (bernsteinWeights t).2.2.1
      + (bernsteinWeights t).2.2.2 = 1 := by
  have hs : 0 ≤ 1 - t := by linarith
  simp only [bernsteinWeights]
  refine ⟨pow_nonneg hs 3, ?_, ?_, pow_nonneg ht0 3, by ring⟩
  · exact mul_nonneg (mul_nonneg (by norm_num) (pow_nonneg hs 2)) ht0
  · exact mul_nonneg (mul_nonneg (by norm_num) hs) (pow_nonneg ht0 2)

/-! ### Further claims on the Bezier curve item -/

/-- C13: `setSegmentCount` performs no validation (every count becomes the segment
count), and with the accepted segment count 1 `updatePaintNode` executes its loop
body once, for index 0, with a zero divisor: the parameter of the single vertex is
`0 / (segmentCount - 1) = 0 / 0`, which has no value, and the returned geometry
holds exactly one slot, written by the loop with that valueless vertex (whatever
the narrowing to `float`).  For every written vertex (index `i < segmentCount`)
the slot of the returned geometry was written by the loop body, and its divisor
`segmentCount - 1` is non-zero if and only if `segmentCount >= 2`; as a number the
divisor is zero exactly when `segmentCount = 1`, and the loop body yields no vertex
when it is zero (in exact arithmetic: exactly when it is zero). -/
theorem C13_single_segment_divides_by_zero (narrow : ℚ → Option ℚ)
    (self : BezierCurve) :
    (∀ count : Int, (self.setSegmentCount count).m_segmentCount = count) ∧
    (self.m_segmentCount = 1 →
      self.divisor = 0 ∧
      qrealDiv ((0 : Nat) : ℚ) self.divisor = none ∧
      self.loopBodyWith narrow self.boundingRect 0 = none ∧
      ∀ oldNode : Option QSGGeometryNode,
        (∀ n, oldNode = some n → n.geometry ≠ none) →
        ∃ (node : QSGGeometryNode) (geometry : QSGGeometry),
          self.updatePaintNodeWith narrow oldNode = some node ∧
          node.geometry = some geometry ∧
          geometry.vertexData
            = [.written (self.loopBodyWith narrow self.boundingRect 0)] ∧
          geometry.vertexData = [.written none]) ∧
    (∀ (oldNode : Option QSGGeometryNode),
      (∀ n, oldNode = some n → n.geometry ≠ none) →
      ∀ i : Nat, (i : Int) < self.m_segmentCount →
        ∃ (node : QSGGeometryNode) (geometry : QSGGeometry),
          self.updatePaintNodeWith narrow oldNode = some node ∧
          node.geometry = some geometry ∧
          geometry.vertexData[i]?
            = some (.written (self.loopBodyWith narrow self.boundingRect i)) ∧
          (self.divisor ≠ 0 ↔ 2 ≤ self.m_segmentCount)) ∧
    (self.divisor = 0 ↔ self.m_segmentCount = 1) ∧
    (∀ i : Nat, self.divisor = 0 →
      self.loopBodyWith narrow self.boundingRect i = none) ∧
    (∀ i : Nat, self.loopBody self.boundingRect i = none ↔ self.divisor = 0) := by
  refine ⟨?_, ?_, ?_, self.divisor_eq_zero_iff, ?_, ?_⟩
  · intro count
    unfold BezierCurve.setSegmentCount
    by_cases h : self.m_segmentCount = count
    · rw [if_pos h]; exact h
    · rw [if_neg h]
  · intro h1
    have hd : self.divisor = 0 := self.divisor_eq_zero_iff.mpr h1
    have hbody : self.loopBodyWith narrow self.boundingRect 0 = none :=
      self.loopBodyWith_of_divisor_zero narrow self.boundingRect 0 hd
    refine ⟨hd, ?_, hbody, ?_⟩
    · simp [qrealDiv, hd]
    · intro oldNode hold
      obtain ⟨node, geometry, hret, hgeo, -, hlen, hv⟩ :=
        self.updatePaintNodeWith_vertices narrow oldNode hold
      have hlen1 : geometry.vertexData.length = 1 := by
        rw [hlen, h1]; rfl
      have h0 := hv 0 (by rw [h1]; decide)
      have hdata : geometry.vertexData
          = [.written (self.loopBodyWith narrow self.boundingRect 0)] :=
        list_eq_singleton _ _ hlen1 h0
      refine ⟨node, geometry, hret, hgeo, hdata, ?_⟩
      rw [hdata, hbody]
  · intro oldNode hold i hi
    obtain ⟨node, geometry, hret, hgeo, -, -, hv⟩ :=
      self.updatePaintNodeWith_vertices narrow oldNode hold
    refine ⟨node, geometry, hret, hgeo, hv i (by omega), ?_⟩
    rw [Ne, self.divisor_eq_zero_iff]
    omega
  · intro i hd
    exact self.loopBodyWith_of_divisor_zero narrow self.boundingRect i hd
  · intro i
    exact self.loopBody_none_iff self.boundingRect i

/-- Witness of C13: on the sample curve with a single segment the divisor is zero,
and repainting it without old node returns a geometry whose only slot was written
with a vertex that has no value; on the sample curve with three segments the slot
of vertex 0 was written by the loop body and its divisor is non-zero. -/
theorem C13_single_segment_divides_by_zero_witness :
    Sample.curve1.m_segmentCount = 1 ∧
    Sample.curve1.divisor = 0 ∧
    (∃ (node : QSGGeometryNode) (geometry : QSGGeometry),
      Sample.curve1.updatePaintNode none = some node ∧
      node.geometry = some geometry ∧
      geometry.vertexData
        = [.written (Sample.curve1.loopBody Sample.curve1.boundingRect 0)] ∧
      geometry.vertexData = [.written none]) ∧
    (Sample.curve3.setSegmentCount 1).m_segmentCount = 1 ∧
    (∃ (node : QSGGeometryNode) (geometry : QSGGeometry),
      Sample.curve3.updatePaintNode none = some node ∧
      node.geometry = some geometry ∧
      geometry.vertexData[0]?
        = some (.written (Sample.curve3.loopBody Sample.curve3.boundingRect 0)) ∧
      (Sample.curve3.divisor ≠ 0 ↔ (2 : Int) ≤ Sample.curve3.m_segmentCount)) :=
  ⟨rfl,
   ((C13_single_segment_divides_by_zero some Sample.curve1).2.1 rfl).1,
   ((C13_single_segment_divides_by_zero some Sample.curve1).2.1 rfl).2.2.2 none
      (fun _ hn => Option.noConfusion hn),
   (C13_single_segment_divides_by_zero some Sample.curve3).1 1,
   (C13_single_segment_divides_by_zero some Sample.curve3).2.2.1 none
      (fun _ hn => Option.noConfusion hn) 0 (by decide)⟩

